import Mathlib

/-!
Verification of the recurrence-rule engine vendored in `src/main.js` (an
rrule build) together with the task-list configuration parser from
`src/src/state.ts` and the `RepeatAdapter` from `src/src/repeat.ts`.

The JavaScript source is shallowly embedded: machine dates are modelled as
integer milliseconds since the Unix epoch (UTC), JS arrays as `List Int`,
nullable values as `Option`, and the unbounded `while (true)` generator loop
of `iter` as a fuel-indexed recursion.  The local time zone is taken to be
UTC (so `dateutil.tzOffset` is 0) and `tzid` to be unset (so
`rezoneIfNeeded` is the identity), matching the engine's default path.
-/

namespace RRLib

/-- `pymod` from `src/main.js`: JavaScript `%` is truncated division
remainder; the source adds `b` back when signs differ, yielding the
floor-style modulus. -/
def pymod (a b : Int) : Int :=
  let r := Int.tmod a b
  if r * b < 0 then r + b else r

/-- `divmod` from `src/main.js` (`Math.floor(a / b)` together with `pymod`). -/
def divmod (a b : Int) : Int × Int :=
  (Int.fdiv a b, pymod a b)

/-- `empty` from `src/main.js` on a nullable array: null/undefined or
zero length. -/
def emptyL (o : Option (List Int)) : Bool :=
  match o with
  | none => true
  | some l => l.isEmpty

/-- `notEmpty` from `src/main.js`. -/
def notEmptyL (o : Option (List Int)) : Bool :=
  !(emptyL o)

/-- `includes` from `src/main.js`: membership in a (nullable) array. -/
def includesO (o : Option (List Int)) (v : Int) : Bool :=
  match o with
  | none => false
  | some l => l.contains v

/-- `includes` on a plain array. -/
def includesL (l : List Int) (v : Int) : Bool :=
  l.contains v

/-- `range(start, end)` from `src/main.js`. -/
def rangeI (s e : Int) : List Int :=
  (List.range (e - s).toNat).map (fun i => s + (i : Int))

/-- `range(end)` from `src/main.js` (one-argument form). -/
def range0 (e : Int) : List Int :=
  rangeI 0 e

/-- `repeat(value, times)` from `src/main.js` (scalar case). -/
def repeatN (v : Int) (times : Int) : List Int :=
  List.replicate times.toNat v

/-! ## Calendar arithmetic (the ECMAScript `Date.UTC` day computation and
`dateutil` from `src/main.js`) -/

/-- `dateutil.MAXYEAR`. -/
def MAXYEAR : Int := 9999

/-- `dateutil.isLeapYear`. -/
def isLeapYear (year : Int) : Bool :=
  (year % 4 == 0 && year % 100 != 0) || year % 400 == 0

/-- `dateutil.MONTH_DAYS`. -/
def MONTH_DAYS : List Int := [31, 28, 31, 30, 31, 30, 31, 31, 30, 31, 30, 31]

/-- Number of days in month `m0` (0-based, assumed normalized to 0..11) of
`year`; `dateutil.getMonthDays` applied to the first of that month. -/
def getMonthDays0 (year m0 : Int) : Int :=
  if m0 == 1 && isLeapYear year then 29 else MONTH_DAYS.getD m0.toNat 0

/-- ECMAScript `DayFromYear`: days from the epoch to January 1 of `y`. -/
def dayFromYear (y : Int) : Int :=
  365 * (y - 1970) + Int.fdiv (y - 1969) 4 - Int.fdiv (y - 1901) 100
    + Int.fdiv (y - 1601) 400

/-- Cumulative days before 0-based month `m0` within a year
(ECMAScript `DayWithinYear` ladder). -/
def monthOffset (leap : Bool) (m0 : Int) : Int :=
  let base : List Int := [0, 31, 59, 90, 120, 151, 181, 212, 243, 273, 304, 334]
  base.getD m0.toNat 0 + (if leap && m0 ≥ 2 then 1 else 0)

/-- ECMAScript `MakeDay`: the day number of `Date.UTC(y, m0, d)` where `m0`
is the 0-based month (normalized like the JS engine) and `d` is 1-based but
may lie outside the month (the engine rolls it over linearly). -/
def makeDay (y m0 d : Int) : Int :=
  let ym := y + Int.fdiv m0 12
  let mn := Int.emod m0 12
  dayFromYear ym + monthOffset (isLeapYear ym) mn + (d - 1)

/-- Milliseconds of `Date.UTC(y, m0, d, h, mi, s, ms)`. -/
def utcMs (y m0 d h mi s ms : Int) : Int :=
  makeDay y m0 d * 86400000 + h * 3600000 + mi * 60000 + s * 1000 + ms

/-- `dateutil.ONE_DAY`. -/
def ONE_DAY : Int := 86400000

/-- `dateutil.toOrdinal`: with a UTC environment `tzOffset` is 0 and all
dates passed in are midnights, so the rounded day quotient is the floor
quotient. -/
def toOrdinal (ms : Int) : Int :=
  Int.fdiv ms ONE_DAY

/-- `dateutil.fromOrdinal`, kept in milliseconds. -/
def fromOrdinal (ordinal : Int) : Int :=
  ordinal * ONE_DAY

/-- `dateutil.PY_WEEKDAYS`. -/
def PY_WEEKDAYS : List Int := [6, 0, 1, 2, 3, 4, 5]

/-- ECMAScript `WeekDay` of a millisecond timestamp (0 = Sunday). -/
def jsWeekDay (ms : Int) : Int :=
  (toOrdinal ms + 4) % 7

/-- `dateutil.getWeekday`: the Python-style weekday (0 = Monday). -/
def getWeekday (ms : Int) : Int :=
  PY_WEEKDAYS.getD (jsWeekDay ms).toNat 0

/-- `dateutil.monthRange`: weekday of the first of the month and the number
of days in the month (`month` is 0-based as in the source call sites). -/
def monthRange (year month : Int) : Int × Int :=
  let firstMs := utcMs year month 1 0 0 0 0
  let ym := year + Int.fdiv month 12
  let mn := Int.emod month 12
  (getWeekday firstMs, getMonthDays0 ym mn)

/-! ## Decomposing a timestamp into UTC calendar fields.
This is the inverse direction of `makeDay` (the JS engine's
`YearFromTime`/`MonthFromTime`/`DateFromTime`), computed with the standard
civil-from-days algorithm. -/

/-- Year, 1-based month and day of a day number. -/
def civilFromDays (z0 : Int) : Int × Int × Int :=
  let z := z0 + 719468
  let era := Int.fdiv z 146097
  let doe := z - era * 146097
  let yoe := Int.fdiv (doe - Int.fdiv doe 1460 + Int.fdiv doe 36524 - Int.fdiv doe 146096) 365
  let y := yoe + era * 400
  let doy := doe - (365 * yoe + Int.fdiv yoe 4 - Int.fdiv yoe 100)
  let mp := Int.fdiv (5 * doy + 2) 153
  let d := doy - Int.fdiv (153 * mp + 2) 5 + 1
  let m := mp + (if mp < 10 then 3 else -9)
  (if m ≤ 2 then y + 1 else y, m, d)

def getUTCFullYear (ms : Int) : Int := (civilFromDays (toOrdinal ms)).1
def getUTCMonth1 (ms : Int) : Int := (civilFromDays (toOrdinal ms)).2.1
def getUTCDate (ms : Int) : Int := (civilFromDays (toOrdinal ms)).2.2
def getUTCHours (ms : Int) : Int := Int.fdiv (ms % ONE_DAY) 3600000
def getUTCMinutes (ms : Int) : Int := Int.fdiv (ms % 3600000) 60000
def getUTCSeconds (ms : Int) : Int := Int.fdiv (ms % 60000) 1000
def getUTCMillis (ms : Int) : Int := ms % 1000

/-! ## Frequencies (`Frequency` enum from `src/main.js`) -/

def YEARLY : Int := 0
def MONTHLY : Int := 1
def WEEKLY : Int := 2
def DAILY : Int := 3
def HOURLY : Int := 4
def MINUTELY : Int := 5
def SECONDLY : Int := 6

/-- `freqIsDailyOrGreater` from `src/main.js`. -/
def freqIsDailyOrGreater (freq : Int) : Bool :=
  freq < HOURLY

/-! ## The `DateTime` counter (`Time`/`DateTime` classes of `src/main.js`).
Mutation is modelled by returning the updated record. -/

structure DateTime where
  year : Int
  month : Int
  day : Int
  hour : Int
  minute : Int
  second : Int
  millisecond : Int
  deriving Repr, DecidableEq

/-- `DateTime.prototype.getTime` (via `Date.UTC(year, month-1, day, ...)`). -/
def DateTime.getTime (dt : DateTime) : Int :=
  utcMs dt.year (dt.month - 1) dt.day dt.hour dt.minute dt.second dt.millisecond

/-- `DateTime.fromDate` (UTC field decomposition; `date.valueOf() % 1000`
agrees with the floor remainder for the nonnegative timestamps in scope). -/
def DateTime.fromDate (ms : Int) : DateTime :=
  { year := getUTCFullYear ms, month := getUTCMonth1 ms, day := getUTCDate ms,
    hour := getUTCHours ms, minute := getUTCMinutes ms, second := getUTCSeconds ms,
    millisecond := ms % 1000 }

/-- `DateTime.prototype.getWeekday`. -/
def DateTime.getWeekday (dt : DateTime) : Int :=
  RRLib.getWeekday dt.getTime

/-- The loop of `DateTime.prototype.fixDay`: while the day exceeds the
current month's length, subtract that length and move to the next month,
carrying into the year and aborting past `MAXYEAR`.  (Termination: every
month, after the `emod 12` normalization inside `monthRange`, has at least
28 days.) -/
def fixDayGo (year month day : Int) : Int × Int × Int :=
  let daysinmonth := (monthRange year (month - 1)).2
  if day ≤ daysinmonth then (year, month, day)
  else
    let day' := day - daysinmonth
    if month + 1 == 13 then
      if year + 1 > MAXYEAR then (year + 1, 1, day')
      else fixDayGo (year + 1) 1 day'
    else fixDayGo year (month + 1) day'
  termination_by day.toNat
  decreasing_by
  all_goals
    have h28 : 28 ≤ (monthRange year (month - 1)).2 := by
      unfold monthRange getMonthDays0
      have h0 : 0 ≤ Int.emod (month - 1) 12 := Int.emod_nonneg _ (by norm_num)
      have h12 : Int.emod (month - 1) 12 < 12 := Int.emod_lt_of_pos _ (by norm_num)
      simp only
      split
      · omega
      · have hk : (Int.emod (month - 1) 12).toNat < 12 := by omega
        set k := (Int.emod (month - 1) 12).toNat with hkdef
        interval_cases k <;> simp [MONTH_DAYS]
    omega

/-- `DateTime.prototype.fixDay`. -/
def DateTime.fixDay (dt : DateTime) : DateTime :=
  if dt.day ≤ 28 then dt
  else
    let r := fixDayGo dt.year dt.month dt.day
    { dt with year := r.1, month := r.2.1, day := r.2.2 }

/-- `DateTime.prototype.addYears`. -/
def DateTime.addYears (years : Int) (dt : DateTime) : DateTime :=
  { dt with year := dt.year + years }

/-- `DateTime.prototype.addMonths`. -/
def DateTime.addMonths (months : Int) (dt : DateTime) : DateTime :=
  let month := dt.month + months
  if month > 12 then
    let yearDiv := Int.fdiv month 12
    let monthMod := pymod month 12
    if monthMod == 0 then
      { dt with month := 12, year := dt.year + yearDiv - 1 }
    else
      { dt with month := monthMod, year := dt.year + yearDiv }
  else
    { dt with month := month }

/-- `DateTime.prototype.addDaily`. -/
def DateTime.addDaily (days : Int) (dt : DateTime) : DateTime :=
  DateTime.fixDay { dt with day := dt.day + days }

/-- `DateTime.prototype.addWeekly`. -/
def DateTime.addWeekly (days wkst : Int) (dt : DateTime) : DateTime :=
  let dt' :=
    if wkst > dt.getWeekday then
      { dt with day := dt.day + (-(dt.getWeekday + 1 + (6 - wkst)) + days * 7) }
    else
      { dt with day := dt.day + (-(dt.getWeekday - wkst) + days * 7) }
  DateTime.fixDay dt'

/-- Loop body of `DateTime.prototype.addHours`; the source loop can fail to
terminate for adversarial inputs, so it runs on fuel and returns `none`
when the fuel is exhausted. -/
def addHoursGo (hours : Int) (byhour : Option (List Int)) :
    Nat → DateTime → Option DateTime
  | 0, _ => none
  | fuel + 1, dt =>
    let h := dt.hour + hours
    let dm := divmod h 24
    let dt' := if dm.1 != 0 then DateTime.addDaily dm.1 { dt with hour := dm.2 }
               else { dt with hour := h }
    if emptyL byhour || includesO byhour dt'.hour then some dt'
    else addHoursGo hours byhour fuel dt'

/-- `DateTime.prototype.addHours`. -/
def DateTime.addHours (fuel : Nat) (hours : Int) (filtered : Bool)
    (byhour : Option (List Int)) (dt : DateTime) : Option DateTime :=
  let dt := if filtered then
      { dt with hour := dt.hour + Int.fdiv (23 - dt.hour) hours * hours }
    else dt
  addHoursGo hours byhour fuel dt

/-- Loop body of `DateTime.prototype.addMinutes`. -/
def addMinutesGo (minutes : Int) (byhour byminute : Option (List Int)) :
    Nat → DateTime → Option DateTime
  | 0, _ => none
  | fuel + 1, dt =>
    let m := dt.minute + minutes
    let dm := divmod m 60
    let step : Option DateTime :=
      if dm.1 != 0 then
        DateTime.addHours (fuel + 1) dm.1 false byhour { dt with minute := dm.2 }
      else some { dt with minute := m }
    match step with
    | none => none
    | some dt' =>
      if (emptyL byhour || includesO byhour dt'.hour) &&
         (emptyL byminute || includesO byminute dt'.minute) then some dt'
      else addMinutesGo minutes byhour byminute fuel dt'

/-- `DateTime.prototype.addMinutes`. -/
def DateTime.addMinutes (fuel : Nat) (minutes : Int) (filtered : Bool)
    (byhour byminute : Option (List Int)) (dt : DateTime) : Option DateTime :=
  let dt := if filtered then
      { dt with minute := dt.minute +
          Int.fdiv (1439 - (dt.hour * 60 + dt.minute)) minutes * minutes }
    else dt
  addMinutesGo minutes byhour byminute fuel dt

/-- Loop body of `DateTime.prototype.addSeconds`. -/
def addSecondsGo (seconds : Int) (byhour byminute bysecond : Option (List Int)) :
    Nat → DateTime → Option DateTime
  | 0, _ => none
  | fuel + 1, dt =>
    let s := dt.second + seconds
    let dm := divmod s 60
    let step : Option DateTime :=
      if dm.1 != 0 then
        DateTime.addMinutes (fuel + 1) dm.1 false byhour byminute { dt with second := dm.2 }
      else some { dt with second := s }
    match step with
    | none => none
    | some dt' =>
      if (emptyL byhour || includesO byhour dt'.hour) &&
         (emptyL byminute || includesO byminute dt'.minute) &&
         (emptyL bysecond || includesO bysecond dt'.second) then some dt'
      else addSecondsGo seconds byhour byminute bysecond fuel dt'

/-- `DateTime.prototype.addSeconds`. -/
def DateTime.addSeconds (fuel : Nat) (seconds : Int) (filtered : Bool)
    (byhour byminute bysecond : Option (List Int)) (dt : DateTime) : Option DateTime :=
  let dt := if filtered then
      { dt with second := dt.second +
          Int.fdiv (86399 - (dt.hour * 3600 + dt.minute * 60 + dt.second)) seconds * seconds }
    else dt
  addSecondsGo seconds byhour byminute bysecond fuel dt

/-! ## Parsed options (`ParsedOptions` of `src/main.js`).
The `tzid` field is omitted: the engine's default path (`tzid` unset) makes
`rezoneIfNeeded` the identity, which is the behaviour modelled here. -/

structure ParsedOptions where
  freq : Int
  dtstart : Int
  interval : Int
  wkst : Int
  count : Option Int
  -- `until` is a reserved word in Lean; this field is the source's `until`.
  untilOpt : Option Int
  bysetpos : Option (List Int)
  bymonth : Option (List Int)
  bymonthday : List Int
  bynmonthday : List Int
  byyearday : Option (List Int)
  byweekno : Option (List Int)
  byweekday : Option (List Int)
  bynweekday : Option (List (Int × Int))
  byhour : Option (List Int)
  byminute : Option (List Int)
  bysecond : Option (List Int)
  byeaster : Option Int
  deriving Repr, DecidableEq

/-- `notEmpty` on the nullable array of `[weekday, n]` pairs. -/
def notEmptyP (o : Option (List (Int × Int))) : Bool :=
  match o with
  | none => false
  | some l => !l.isEmpty

/-- `DateTime.prototype.add` (dispatch on frequency). An out-of-range
frequency falls through the source's `switch` without mutating, which is
modelled by returning the state unchanged. -/
def DateTime.add (fuel : Nat) (o : ParsedOptions) (filtered : Bool)
    (dt : DateTime) : Option DateTime :=
  if o.freq == YEARLY then some (DateTime.addYears o.interval dt)
  else if o.freq == MONTHLY then some (DateTime.addMonths o.interval dt)
  else if o.freq == WEEKLY then some (DateTime.addWeekly o.interval o.wkst dt)
  else if o.freq == DAILY then some (DateTime.addDaily o.interval dt)
  else if o.freq == HOURLY then DateTime.addHours fuel o.interval filtered o.byhour dt
  else if o.freq == MINUTELY then DateTime.addMinutes fuel o.interval filtered o.byhour o.byminute dt
  else if o.freq == SECONDLY then DateTime.addSeconds fuel o.interval filtered o.byhour o.byminute o.bysecond dt
  else some dt

/-! ## Date masks (`src/main.js`, "Date masks" section) -/

/-- JS reads of an out-of-range array index yield `undefined`; for the value
masks this sentinel is never equal to any genuine entry (and in fact all
reads stay in range). -/
def JSUNDEF : Int := -1000000

/-- JS `arr[i]` for value masks. -/
def aget (l : List Int) (i : Int) : Int :=
  if 0 ≤ i then l.getD i.toNat JSUNDEF else JSUNDEF

/-- JS `arr[i]` for 0/1 masks used in truthiness position (`undefined` and
`0` are both falsy). -/
def maskAt (l : List Int) (i : Int) : Int :=
  if 0 ≤ i then l.getD i.toNat 0 else 0

/-- JS `arr[i] = v` (assignments to negative indices create non-index
properties, which no mask read ever observes). -/
def lset (l : List Int) (i v : Int) : List Int :=
  if 0 ≤ i then l.set i.toNat v else l

def M365MASK : List Int :=
  repeatN 1 31 ++ repeatN 2 28 ++ repeatN 3 31 ++ repeatN 4 30 ++ repeatN 5 31 ++
  repeatN 6 30 ++ repeatN 7 31 ++ repeatN 8 31 ++ repeatN 9 30 ++ repeatN 10 31 ++
  repeatN 11 30 ++ repeatN 12 31 ++ repeatN 1 7

def M366MASK : List Int :=
  repeatN 1 31 ++ repeatN 2 29 ++ repeatN 3 31 ++ repeatN 4 30 ++ repeatN 5 31 ++
  repeatN 6 30 ++ repeatN 7 31 ++ repeatN 8 31 ++ repeatN 9 30 ++ repeatN 10 31 ++
  repeatN 11 30 ++ repeatN 12 31 ++ repeatN 1 7

def M28 : List Int := rangeI 1 29
def M29 : List Int := rangeI 1 30
def M30 : List Int := rangeI 1 31
def M31 : List Int := rangeI 1 32

def MDAY366MASK : List Int :=
  M31 ++ M29 ++ M31 ++ M30 ++ M31 ++ M30 ++ M31 ++ M31 ++ M30 ++ M31 ++ M30 ++ M31 ++ M31.take 7

def MDAY365MASK : List Int :=
  M31 ++ M28 ++ M31 ++ M30 ++ M31 ++ M30 ++ M31 ++ M31 ++ M30 ++ M31 ++ M30 ++ M31 ++ M31.take 7

def NM28 : List Int := rangeI (-28) 0
def NM29 : List Int := rangeI (-29) 0
def NM30 : List Int := rangeI (-30) 0
def NM31 : List Int := rangeI (-31) 0

def NMDAY366MASK : List Int :=
  NM31 ++ NM29 ++ NM31 ++ NM30 ++ NM31 ++ NM30 ++ NM31 ++ NM31 ++ NM30 ++ NM31 ++ NM30 ++ NM31 ++ NM31.take 7

def NMDAY365MASK : List Int :=
  NM31 ++ NM28 ++ NM31 ++ NM30 ++ NM31 ++ NM30 ++ NM31 ++ NM31 ++ NM30 ++ NM31 ++ NM30 ++ NM31 ++ NM31.take 7

def M366RANGE : List Int := [0, 31, 60, 91, 121, 152, 182, 213, 244, 274, 305, 335, 366]
def M365RANGE : List Int := [0, 31, 59, 90, 120, 151, 181, 212, 243, 273, 304, 334, 365]

/-- `WDAYMASK`: 55 copies of the 7-day cycle. -/
def WDAYMASK : List Int :=
  (List.replicate 55 (range0 7)).flatten

/-! ## `Iterinfo` (year/month classification masks of `src/main.js`) -/

structure YearInfo where
  yearlen : Int
  nextyearlen : Int
  yearordinal : Int
  yearweekday : Int
  mmask : List Int
  mdaymask : List Int
  nmdaymask : List Int
  wdaymask : List Int
  mrange : List Int
  wnomask : Option (List Int)
  deriving Repr, DecidableEq

structure MonthInfo where
  lastyear : Int
  lastmonth : Int
  nwdaymask : List Int
  deriving Repr, DecidableEq

/-- `markWeek`: the inner `for (k = 0; k < 7; k++)` loops of `rebuildYear`
that mark seven consecutive days, stopping early at the next `wkst`. -/
def markWeek (wdaymask : List Int) (wkst : Int) : Nat → Int → List Int → List Int
  | 0, _, mask => mask
  | f + 1, i, mask =>
    let mask' := lset mask i 1
    let i' := i + 1
    if aget wdaymask i' == wkst then mask'
    else markWeek wdaymask wkst f i' mask'

/-- `rebuildYear` from `src/main.js` (including the `byweekno` mask). -/
def rebuildYear (year : Int) (o : ParsedOptions) : YearInfo :=
  let firstydayMs := utcMs year 0 1 0 0 0 0
  let yearlen : Int := if isLeapYear year then 366 else 365
  let nextyearlen : Int := if isLeapYear (year + 1) then 366 else 365
  let yearordinal := toOrdinal firstydayMs
  let yearweekday := getWeekday firstydayMs
  let wday := yearweekday
  let base : YearInfo :=
    if yearlen == 365 then
      { yearlen, nextyearlen, yearordinal, yearweekday,
        mmask := M365MASK, mdaymask := MDAY365MASK, nmdaymask := NMDAY365MASK,
        wdaymask := WDAYMASK.drop wday.toNat, mrange := M365RANGE, wnomask := none }
    else
      { yearlen, nextyearlen, yearordinal, yearweekday,
        mmask := M366MASK, mdaymask := MDAY366MASK, nmdaymask := NMDAY366MASK,
        wdaymask := WDAYMASK.drop wday.toNat, mrange := M366RANGE, wnomask := none }
  if emptyL o.byweekno then base
  else
    let firstwkst := pymod (7 - yearweekday + o.wkst) 7
    let no1wkst := firstwkst
    let no1wkst := if no1wkst ≥ 4 then 0 else no1wkst
    let wyearlen :=
      if firstwkst ≥ 4 then yearlen + pymod (yearweekday - o.wkst) 7
      else yearlen - no1wkst
    -- `Math.floor(div + mod / 4)` with integer `div` equals `div + ⌊mod / 4⌋`.
    let div := Int.fdiv wyearlen 7
    let md := pymod wyearlen 7
    let numweeks := div + Int.fdiv md 4
    let mask0 := repeatN 0 (yearlen + 7)
    let mask1 := (o.byweekno.getD []).foldl
      (fun mask n0 =>
        let n := if n0 < 0 then n0 + numweeks + 1 else n0
        if !(n > 0 && n ≤ numweeks) then mask
        else
          let i :=
            if n > 1 then
              let i0 := no1wkst + (n - 1) * 7
              if no1wkst != firstwkst then i0 - (7 - firstwkst) else i0
            else no1wkst
          markWeek base.wdaymask o.wkst 7 i mask) mask0
    let mask2 :=
      if includesO o.byweekno 1 then
        -- week number 1 of next year
        let i0 := no1wkst + numweeks * 7
        let i := if no1wkst != firstwkst then i0 - (7 - firstwkst) else i0
        if i < yearlen then markWeek base.wdaymask o.wkst 7 i mask1 else mask1
      else mask1
    let mask3 :=
      if no1wkst != 0 then
        let lnumweeks :=
          if !includesO o.byweekno (-1) then
            let lyearweekday := getWeekday (utcMs (year - 1) 0 1 0 0 0 0)
            let lno1wkst := pymod (7 - lyearweekday + o.wkst) 7
            let lyearlen : Int := if isLeapYear (year - 1) then 366 else 365
            let weekst :=
              if lno1wkst ≥ 4 then lyearlen + pymod (lyearweekday - o.wkst) 7
              else yearlen - no1wkst
            52 + Int.fdiv (pymod weekst 7) 4
          else -1
        if includesO o.byweekno lnumweeks then
          (range0 no1wkst).foldl (fun mask i => lset mask i 1) mask2
        else mask2
      else mask2
    { base with wnomask := some mask3 }

/-- `rebuildMonth` from `src/main.js`. -/
def rebuildMonth (year month yearlen : Int) (mrange wdaymask : List Int)
    (o : ParsedOptions) : MonthInfo :=
  let ranges : List (Int × Int) :=
    if o.freq == YEARLY then
      if emptyL o.bymonth then [(0, yearlen)]
      else (o.bymonth.getD []).map (fun mth => (aget mrange (mth - 1), aget mrange mth))
    else if o.freq == MONTHLY then [(aget mrange (month - 1), aget mrange month)]
    else []
  if ranges.isEmpty then
    { lastyear := year, lastmonth := month, nwdaymask := [] }
  else
    let mask0 := repeatN 0 yearlen
    let mask := ranges.foldl
      (fun mask rang =>
        let first := rang.1
        let last := rang.2 - 1
        (o.bynweekday.getD []).foldl
          (fun mask wn =>
            let wday := wn.1
            let n := wn.2
            let i :=
              if n < 0 then
                let i0 := last + (n + 1) * 7
                i0 - pymod (aget wdaymask i0 - wday) 7
              else
                let i0 := first + (n - 1) * 7
                i0 + pymod (7 - aget wdaymask i0 + wday) 7
            if first ≤ i && i ≤ last then lset mask i 1 else mask) mask) mask0
    { lastyear := year, lastmonth := month, nwdaymask := mask }

/-- `easter` from `src/main.js` (anonymous Gregorian algorithm), returning
the singleton mask of ordinal day-of-year offsets. -/
def easterMask (y off : Int) : List Int :=
  let a := y % 19
  let b := Int.fdiv y 100
  let c := y % 100
  let d := Int.fdiv b 4
  let e := b % 4
  let f := Int.fdiv (b + 8) 25
  let g := Int.fdiv (b - f + 1) 3
  let h := (19 * a + b - d - g + 15) % 30
  let i := Int.fdiv c 4
  let k := c % 4
  let l := (32 + 2 * e + 2 * i - h - k) % 7
  let m := Int.fdiv (a + 11 * h + 22 * l) 451
  let month := Int.fdiv (h + l - 7 * m + 114) 31
  let day := (h + l - 7 * m + 114) % 31 + 1
  -- `Math.ceil((date - yearStart) / ONE_DAY)` is exact on these midnights.
  [makeDay y (month - 1) (day + off) - makeDay y 0 1]

structure Iterinfo where
  yearinfo : YearInfo
  monthinfo : Option MonthInfo
  eastermask : Option (List Int)
  deriving Repr, DecidableEq

/-- `Iterinfo.prototype.rebuild`.  The source caches the year/month info in
mutable fields and only recomputes on a year/month change; since
`rebuildYear`/`rebuildMonth` are pure, recomputing every period is
observationally identical and is what this stateless model does. -/
def Iterinfo.rebuild (o : ParsedOptions) (year month : Int) : Iterinfo :=
  let yi := rebuildYear year o
  let mi :=
    if notEmptyP o.bynweekday then
      some (rebuildMonth year month yi.yearlen yi.mrange yi.wdaymask o)
    else none
  let em := match o.byeaster with
    | some off => some (easterMask year off)
    | none => none
  ⟨yi, mi, em⟩

def Iterinfo.nwdaymask (ii : Iterinfo) : List Int :=
  match ii.monthinfo with
  | some mi => mi.nwdaymask
  | none => []

def Iterinfo.yearlen (ii : Iterinfo) : Int := ii.yearinfo.yearlen
def Iterinfo.nextyearlen (ii : Iterinfo) : Int := ii.yearinfo.nextyearlen
def Iterinfo.yearordinal (ii : Iterinfo) : Int := ii.yearinfo.yearordinal
def Iterinfo.mmask (ii : Iterinfo) : List Int := ii.yearinfo.mmask
def Iterinfo.mdaymask (ii : Iterinfo) : List Int := ii.yearinfo.mdaymask
def Iterinfo.nmdaymask (ii : Iterinfo) : List Int := ii.yearinfo.nmdaymask
def Iterinfo.wdaymask (ii : Iterinfo) : List Int := ii.yearinfo.wdaymask
def Iterinfo.mrange (ii : Iterinfo) : List Int := ii.yearinfo.mrange

/-! ## Day sets (`ydayset`/`mdayset`/`wdayset`/`ddayset`) -/

/-- JS read of the (nullable) day-set array. -/
def dget (l : List (Option Int)) (j : Int) : Option Int :=
  if 0 ≤ j then l.getD j.toNat none else none

/-- `Iterinfo.prototype.ydayset`. -/
def ydayset (ii : Iterinfo) : List (Option Int) × Int × Int :=
  ((range0 ii.yearlen).map some, 0, ii.yearlen)

/-- `Iterinfo.prototype.mdayset` (the `repeat(null, yearlen)` array with the
slots of the month filled in). -/
def mdayset (ii : Iterinfo) (month : Int) : List (Option Int) × Int × Int :=
  let s := aget ii.mrange (month - 1)
  let e := aget ii.mrange month
  ((range0 ii.yearlen).map (fun i => if s ≤ i && i < e then some i else none), s, e)

/-- The marking loop of `Iterinfo.prototype.wdayset`: up to seven
consecutive days starting at `i`, stopping before the next `wkst`; returns
the marked indices and the final cursor. -/
def wdaysetGo (wdaymask : List Int) (wkst : Int) : Nat → Int → List Int × Int
  | 0, i => ([], i)
  | f + 1, i =>
    let i' := i + 1
    if aget wdaymask i' == wkst then ([i], i')
    else
      let r := wdaysetGo wdaymask wkst f i'
      (i :: r.1, r.2)

/-- `Iterinfo.prototype.wdayset`. -/
def wdayset (o : ParsedOptions) (ii : Iterinfo) (y m d : Int) :
    List (Option Int) × Int × Int :=
  let i0 := toOrdinal (utcMs y (m - 1) d 0 0 0 0) - ii.yearordinal
  let r := wdaysetGo ii.wdaymask o.wkst 7 i0
  ((range0 (ii.yearlen + 7)).map (fun k => if r.1.contains k then some k else none),
   i0, r.2)

/-- `Iterinfo.prototype.ddayset`. -/
def ddayset (ii : Iterinfo) (y m d : Int) : List (Option Int) × Int × Int :=
  let i := toOrdinal (utcMs y (m - 1) d 0 0 0 0) - ii.yearordinal
  ((range0 ii.yearlen).map (fun k => if k == i then some k else none), i, i + 1)

/-- `Iterinfo.prototype.getdayset` (dispatch; `default` is `ddayset`). -/
def getdayset (o : ParsedOptions) (ii : Iterinfo) (y m d : Int) :
    List (Option Int) × Int × Int :=
  if o.freq == YEARLY then ydayset ii
  else if o.freq == MONTHLY then mdayset ii m
  else if o.freq == WEEKLY then wdayset o ii y m d
  else ddayset ii y m d

/-! ## Time sets -/

structure Time where
  hour : Int
  minute : Int
  second : Int
  millisecond : Int
  deriving Repr, DecidableEq

/-- `Time.prototype.getTime`. -/
def Time.getTime (t : Time) : Int :=
  (t.hour * 60 * 60 + t.minute * 60 + t.second) * 1000 + t.millisecond

/-- `dateutil.sort` on times (ascending by `getTime`; JS `Array.sort` is
stable). -/
def sortTimes (l : List Time) : List Time :=
  l.mergeSort (fun a b => decide (a.getTime ≤ b.getTime))

/-- `dateutil.sort` on timestamps. -/
def sortInts (l : List Int) : List Int :=
  l.mergeSort (fun a b => decide (a ≤ b))

/-- `Iterinfo.prototype.mtimeset`. -/
def mtimeset (o : ParsedOptions) (hour minute _second millisecond : Int) : List Time :=
  sortTimes ((o.bysecond.getD []).map (fun second => ⟨hour, minute, second, millisecond⟩))

/-- `Iterinfo.prototype.htimeset`. -/
def htimeset (o : ParsedOptions) (hour _minute second millisecond : Int) : List Time :=
  let set := (o.byminute.getD []).foldl
    (fun acc minute => acc ++ mtimeset o hour minute second millisecond) []
  sortTimes set

/-- `Iterinfo.prototype.stimeset`. -/
def stimeset (hour minute second millisecond : Int) : List Time :=
  [⟨hour, minute, second, millisecond⟩]

/-- `Iterinfo.prototype.gettimeset` (only invoked for sub-daily
frequencies; the impossible fall-through reuses `stimeset`). -/
def gettimeset (o : ParsedOptions) (freq h m s ms : Int) : List Time :=
  if freq == HOURLY then htimeset o h m s ms
  else if freq == MINUTELY then mtimeset o h m s ms
  else stimeset h m s ms

/-- `buildTimeset` from `src/main.js`. -/
def buildTimeset (o : ParsedOptions) : List Time :=
  let millisecondModulo := o.dtstart % 1000
  if !freqIsDailyOrGreater o.freq then []
  else
    (o.byhour.getD []).foldl (fun acc hour =>
      acc ++ (o.byminute.getD []).foldl (fun acc minute =>
        acc ++ (o.bysecond.getD []).foldl (fun acc second =>
          acc ++ [⟨hour, minute, second, millisecondModulo⟩]) []) []) []

/-- `makeTimeset` from `src/main.js`. -/
def makeTimeset (o : ParsedOptions) (counter : DateTime) : List Time :=
  if freqIsDailyOrGreater o.freq then buildTimeset o
  else if (o.freq ≥ HOURLY && notEmptyL o.byhour && !includesO o.byhour counter.hour) ||
          (o.freq ≥ MINUTELY && notEmptyL o.byminute && !includesO o.byminute counter.minute) ||
          (o.freq ≥ SECONDLY && notEmptyL o.bysecond && !includesO o.bysecond counter.second) then
    []
  else gettimeset o o.freq counter.hour counter.minute counter.second counter.millisecond

/-! ## BY-rule filtering (`isFiltered`, `removeFilteredDays`) -/

/-- `isFiltered` from `src/main.js`. -/
def isFiltered (ii : Iterinfo) (currentDay : Int) (o : ParsedOptions) : Bool :=
  (notEmptyL o.bymonth && !includesO o.bymonth (aget ii.mmask currentDay)) ||
  (notEmptyL o.byweekno && maskAt (ii.yearinfo.wnomask.getD []) currentDay == 0) ||
  (notEmptyL o.byweekday && !includesO o.byweekday (aget ii.wdaymask currentDay)) ||
  (!ii.nwdaymask.isEmpty && maskAt ii.nwdaymask currentDay == 0) ||
  (o.byeaster.isSome && !includesL (ii.eastermask.getD []) currentDay) ||
  ((!o.bymonthday.isEmpty || !o.bynmonthday.isEmpty) &&
     !includesL o.bymonthday (aget ii.mdaymask currentDay) &&
     !includesL o.bynmonthday (aget ii.nmdaymask currentDay)) ||
  (notEmptyL o.byyearday &&
     ((currentDay < ii.yearlen && !includesO o.byyearday (currentDay + 1) &&
        !includesO o.byyearday (-ii.yearlen + currentDay)) ||
      (currentDay ≥ ii.yearlen && !includesO o.byyearday (currentDay + 1 - ii.yearlen) &&
        !includesO o.byyearday (-ii.nextyearlen + currentDay - ii.yearlen))))

/-- `removeFilteredDays` from `src/main.js`.  Every slot of `dayset` in
`[dstart, dend)` initially holds its own index, so nulling `dayset[currentDay]`
is nulling the slot under the cursor; the returned flag is the verdict on
the last day examined (exactly as in the source, which overwrites
`filtered` on every iteration). -/
def removeFilteredDays (ii : Iterinfo) (o : ParsedOptions)
    (dayset : List (Option Int)) (dstart dend : Int) :
    List (Option Int) × Bool :=
  let newset := dayset.mapIdx (fun k e =>
    if dstart ≤ (k : Int) && (k : Int) < dend && isFiltered ii (k : Int) o then none else e)
  (newset, dstart < dend && isFiltered ii (dend - 1) o)

/-! ## `bysetpos` candidate selection (`buildPoslist`) -/

/-- `daypos` of one `buildPoslist` iteration (`Math.floor` is `Int.fdiv`). -/
def poslistDaypos (pos tlen : Int) : Int :=
  if pos < 0 then Int.fdiv pos tlen else Int.fdiv (pos - 1) tlen

/-- `timepos` of one `buildPoslist` iteration. -/
def poslistTimepos (pos tlen : Int) : Int :=
  if pos < 0 then pymod pos tlen else pymod (pos - 1) tlen

/-- The day index picked from the surviving days `tmp`:
`daypos < 0 ? tmp.slice(daypos)[0] : tmp[daypos]` (`none` = `undefined`). -/
def poslistDayIndex (tmp : List Int) (daypos : Int) : Option Int :=
  if daypos < 0 then
    if tmp.isEmpty then none
    else some (tmp.getD (max ((tmp.length : Int) + daypos) 0).toNat 0)
  else
    if daypos < (tmp.length : Int) then some (tmp.getD daypos.toNat 0) else none

/-- One loop iteration of `buildPoslist` from `src/main.js`: the candidate
contributed by one `bysetpos` entry, if any.  An out-of-range position
produces an invalid (`NaN`) date, which the iteration loop can never emit
(`NaN >= dtstart` is false), so such entries are `none` here. -/
def poslistEntry (timeset : List Time) (dstart dend : Int) (ii : Iterinfo)
    (dayset : List (Option Int)) (pos : Int) : Option Int :=
  if ((timeset.length : Int) == 0) = true then none
  else
    match poslistDayIndex ((rangeI dstart dend).filterMap (fun k => dget dayset k))
        (poslistDaypos pos timeset.length),
      timeset[(poslistTimepos pos timeset.length).toNat]? with
    | some i, some time => some (fromOrdinal (ii.yearordinal + i) + time.getTime)
    | _, _ => none

/-- `buildPoslist` from `src/main.js`.  The source's duplicate check
`includes(poslist, res)` compares `Date` objects by reference and hence
never fires, so no deduplication happens: every produced entry is pushed,
then the list is sorted. -/
def buildPoslist (bysetpos : List Int) (timeset : List Time)
    (dstart dend : Int) (ii : Iterinfo) (dayset : List (Option Int)) : List Int :=
  sortInts (bysetpos.foldl (fun acc pos =>
    acc ++ (poslistEntry timeset dstart dend ii dayset pos).toList) [])

/-! ## The candidate stream of `iter`.

`iter` in `src/main.js` interleaves candidate generation with the
accept-sink.  Because the sink's verdicts never influence *which* candidates
are generated next (the `filtered` flag fed to `DateTime.add` depends only
on `removeFilteredDays`), the loop factors into (a) the stream of candidate
timestamps produced period by period, and (b) a per-candidate processing
pass applying the `until`/`dtstart`/`count` logic and the sink's accept
policy.  The stream is fuel-indexed: one unit of fuel per period; the
Boolean records whether generation stopped because the fuel ran out (as
opposed to the `MAXYEAR` cap or the `interval === 0` guard of the source). -/

/-- Candidates of one period, together with the `filtered` flag passed to
`DateTime.add`. -/
def periodCandidates (o : ParsedOptions) (ii : Iterinfo) (counter : DateTime)
    (timeset : List Time) : List Int × Bool :=
  let ds := getdayset o ii counter.year counter.month counter.day
  let rf := removeFilteredDays ii o ds.1 ds.2.1 ds.2.2
  let cands :=
    if notEmptyL o.bysetpos then
      buildPoslist (o.bysetpos.getD []) timeset ds.2.1 ds.2.2 ii rf.1
    else
      (rangeI ds.2.1 ds.2.2).flatMap (fun j =>
        match dget rf.1 j with
        | none => []
        | some currentDay =>
          timeset.map (fun time => fromOrdinal (ii.yearordinal + currentDay) + time.getTime))
  (cands, rf.2)

/-- The period loop of `iter`, emitting candidates until the `MAXYEAR` cap
(or the fuel runs out, flagged `true`). -/
def candStreamGo (o : ParsedOptions) : Nat → DateTime → List Time → List Int × Bool
  | 0, _, _ => ([], true)
  | fuel + 1, counter, timeset =>
    let ii := Iterinfo.rebuild o counter.year counter.month
    let pc := periodCandidates o ii counter timeset
    if o.interval == 0 then (pc.1, false)
    else
      match DateTime.add (fuel + 1) o pc.2 counter with
      | none => (pc.1, true)
      | some counter' =>
        if counter'.year > MAXYEAR then (pc.1, false)
        else
          let timeset' :=
            if !freqIsDailyOrGreater o.freq then
              gettimeset o o.freq counter'.hour counter'.minute counter'.second 0
            else timeset
          let rest := candStreamGo o fuel counter' timeset'
          (pc.1 ++ rest.1, rest.2)

/-- The full candidate stream of `iter` starting from `dtstart`. -/
def candStream (fuel : Nat) (o : ParsedOptions) : List Int :=
  let counter := DateTime.fromDate o.dtstart
  (candStreamGo o fuel counter (makeTimeset o counter)).1

/-- Whether generation was cut short by fuel rather than by the engine's
own stopping rules. -/
def candExhausted (fuel : Nat) (o : ParsedOptions) : Bool :=
  let counter := DateTime.fromDate o.dtstart
  (candStreamGo o fuel counter (makeTimeset o counter)).2

/-! ## Query methods and the `IterResult` accept policies -/

/-- A query mode with its arguments (`IterResult`'s `method`/`args`). -/
inductive QMethod where
  | mAll : QMethod
  | mBefore (dt : Int) (inc : Bool) : QMethod
  | mAfter (dt : Int) (inc : Bool) : QMethod
  | mBetween (aft bef : Int) (inc : Bool) : QMethod
  deriving Repr, DecidableEq

/-- `IterResult`'s `minDate` (computed in the constructor). -/
def QMethod.minDate : QMethod → Option Int
  | .mBetween aft _ inc => some (if inc then aft else aft + 1)
  | .mAfter dt inc => some (if inc then dt else dt + 1)
  | _ => none

/-- `IterResult`'s `maxDate` (computed in the constructor). -/
def QMethod.maxDate : QMethod → Option Int
  | .mBetween _ bef inc => some (if inc then bef else bef - 1)
  | .mBefore dt inc => some (if inc then dt else dt - 1)
  | _ => none

/-- `IterResult.prototype.accept` distilled to its two effects on a date:
whether the date is pushed onto `_result` and whether iteration continues. -/
def acceptDecision (m : QMethod) (date : Int) : Bool × Bool :=
  let tooEarly := match m.minDate with
    | some md => decide (date < md)
    | none => false
  let tooLate := match m.maxDate with
    | some md => decide (date > md)
    | none => false
  match m with
  | .mAll => (true, true)
  | .mBefore _ _ => if tooLate then (false, false) else (true, true)
  | .mAfter _ _ => if tooEarly then (false, true) else (true, false)
  | .mBetween _ _ _ =>
    if tooEarly then (false, true)
    else if tooLate then (false, false)
    else (true, true)

/-- The `if (count) { --count; if (!count) ... }` bookkeeping of `iter`:
next count value and whether the loop stops. -/
def countStep (count : Option Int) : Option Int × Bool :=
  match count with
  | some c => if c != 0 then (some (c - 1), c - 1 == 0) else (some c, false)
  | none => (none, false)

/-- The per-candidate processing loop of `iter` (both the `bysetpos` and
the plain branch run this logic on each candidate `res` in order): stop on
`res > until`; skip `res < dtstart`; otherwise consult the accept policy
and the count.  Returns the emitted dates. -/
def runCands (m : QMethod) (dtstart : Int) (untilOpt : Option Int) :
    List Int → Option Int → List Int
  | [], _ => []
  | r :: rest, count =>
    if (match untilOpt with | some u => decide (r > u) | none => false) then []
    else if r ≥ dtstart then
      let dec := acceptDecision m r
      let out := if dec.1 then [r] else []
      if !dec.2 then out
      else
        let cs := countStep count
        if cs.2 then out else out ++ runCands m dtstart untilOpt rest cs.1
    else runCands m dtstart untilOpt rest count

/-- `iter` with an `IterResult(m)` sink, as the list of emitted dates
(`IterResult._result`); the leading guard is the source's
`count === 0 || interval === 0` early return. -/
def iterResultList (fuel : Nat) (o : ParsedOptions) (m : QMethod) : List Int :=
  if o.count == some 0 || o.interval == 0 then []
  else runCands m o.dtstart o.untilOpt (candStream fuel o) o.count

/-- `RRule.prototype.all` (no iterator argument). -/
def allQuery (fuel : Nat) (o : ParsedOptions) : List Int :=
  iterResultList fuel o .mAll

/-- `RRule.prototype.between`. -/
def betweenQuery (fuel : Nat) (o : ParsedOptions) (aft bef : Int) (inc : Bool) : List Int :=
  iterResultList fuel o (.mBetween aft bef inc)

/-- `RRule.prototype.before` (`getValue` keeps the last accumulated date). -/
def beforeQuery (fuel : Nat) (o : ParsedOptions) (dt : Int) (inc : Bool) : Option Int :=
  (iterResultList fuel o (.mBefore dt inc)).getLast?

/-- `RRule.prototype.after`. -/
def afterQuery (fuel : Nat) (o : ParsedOptions) (dt : Int) (inc : Bool) : Option Int :=
  (iterResultList fuel o (.mAfter dt inc)).getLast?

/-- `IterResult.prototype.getValue`: lists for `all`/`between`, the last
date (or null) for `before`/`after`. -/
inductive QueryResult where
  | dates (l : List Int) : QueryResult
  | single (d : Option Int) : QueryResult
  deriving Repr, DecidableEq

def getValueOf (m : QMethod) (res : List Int) : QueryResult :=
  match m with
  | .mAll => .dates res
  | .mBetween _ _ _ => .dates res
  | _ => .single res.getLast?

/-- A query answered by running the iterator directly. -/
def directQuery (fuel : Nat) (o : ParsedOptions) (m : QMethod) : QueryResult :=
  getValueOf m (iterResultList fuel o m)

/-- The replay loop of `Cache.prototype._cacheGet`: each cached date is fed
to a fresh `IterResult(m)` until `accept` returns false. -/
def cacheFilter (m : QMethod) : List Int → List Int
  | [] => []
  | d :: rest =>
    let dec := acceptDecision m d
    (if dec.1 then [d] else []) ++ (if dec.2 then cacheFilter m rest else [])

/-- A query answered from a completed `all` cache, as in
`Cache.prototype._cacheGet` when `this.all` is set. -/
def cachedQuery (fuel : Nat) (o : ParsedOptions) (m : QMethod) : QueryResult :=
  getValueOf m (cacheFilter m (iterResultList fuel o .mAll))

/-! ## `all` with a callback (`CallbackIterResult`), used by
`RepeatAdapter.next` -/

/-- The per-candidate loop of `iter` against a `CallbackIterResult('all')`:
`add` pushes only while the callback approves (receiving the date and the
current result length) and stops the iteration otherwise. -/
def runCandsCb (cb : Int → Nat → Bool) (dtstart : Int) (untilOpt : Option Int) :
    List Int → Nat → Option Int → List Int
  | [], _, _ => []
  | r :: rest, k, count =>
    if (match untilOpt with | some u => decide (r > u) | none => false) then []
    else if r ≥ dtstart then
      if cb r k then
        let cs := countStep count
        r :: (if cs.2 then [] else runCandsCb cb dtstart untilOpt rest (k + 1) cs.1)
      else []
    else runCandsCb cb dtstart untilOpt rest k count

/-- `RRule.prototype.all(iterator)`. -/
def allWithIterator (fuel : Nat) (o : ParsedOptions) (cb : Int → Nat → Bool) : List Int :=
  if o.count == some 0 || o.interval == 0 then []
  else runCandsCb cb o.dtstart o.untilOpt (candStream fuel o) 0 o.count

/-- `RepeatAdapter.next` from `src/src/repeat.ts`:
`this.rrule.all((_, len) => len < count)`. -/
def adapterNext (fuel : Nat) (o : ParsedOptions) (n : Nat) : List Int :=
  allWithIterator fuel o (fun _ len => decide (len < n))

/-! ## `iterSet` (the `RRuleSet` merge of `src/main.js`), `method = 'all'`.

`_exdateHash` is a set of timestamps, modelled as a `List Int` queried with
`contains`; `DateWithZone.rezonedDate` is the identity for an unset `tzid`.
The patched `accept` always returns `true` in `'all'` mode, so neither the
`rdate` seeding loop nor any rule's iteration is ever cancelled by it. -/

/-- A JS option value that may be a bare number or an array of numbers. -/
inductive NumArr where
  | num (n : Int)
  | arr (l : List Int)
  deriving Repr, DecidableEq

/-- The `Weekday` class: weekday index plus optional ordinal.  (The class
constructor rejects `n === 0`; a `some 0` ordinal is therefore
unconstructible but is carried along faithfully by the truthiness tests.) -/
structure Weekday where
  weekday : Int
  n : Option Int
  deriving Repr, DecidableEq

def ALL_WEEKDAYS : List String := ["MO", "TU", "WE", "TH", "FR", "SA", "SU"]

/-- `Weekday.fromStr`. -/
def weekdayFromStr (s : String) : Weekday :=
  ⟨match ALL_WEEKDAYS.findIdx? (· == s) with
   | some i => (i : Int)
   | none => -1, none⟩

/-- One element of a `byweekday` option. -/
inductive WdayItem where
  | wnum (n : Int)
  | wstr (s : String)
  | wobj (w : Weekday)
  deriving Repr, DecidableEq

/-- The `byweekday` option: a single item or an array. -/
inductive ByWeekdayArg where
  | single (it : WdayItem)
  | multi (l : List WdayItem)
  deriving Repr, DecidableEq

/-- User-facing options (`Partial<Options>`). -/
structure InputOptions where
  freq : Option Int
  dtstart : Option Int
  interval : Option Int
  wkst : Option (Sum Int Weekday)
  count : Option Int
  untilOpt : Option Int
  bysetpos : Option NumArr
  bymonth : Option NumArr
  bymonthday : Option NumArr
  byyearday : Option NumArr
  byweekno : Option NumArr
  byweekday : Option ByWeekdayArg
  byhour : Option NumArr
  byminute : Option NumArr
  bysecond : Option NumArr
  byeaster : Option Int
  deriving Repr, DecidableEq

/-- JS `Boolean(value)` on a number-or-array option (`0` is falsy, any
array — even empty — is truthy). -/
def jsBool (o : Option NumArr) : Bool :=
  match o with
  | none => false
  | some (.num n) => n != 0
  | some (.arr _) => true

/-- `notEmpty(value)` on a number-or-array option: a bare number has an
`undefined` `.length`, which is not `=== 0`, so numbers count as non-empty. -/
def jsNotEmpty (o : Option NumArr) : Bool :=
  match o with
  | none => false
  | some (.num _) => true
  | some (.arr l) => !l.isEmpty

/-- `parseOptions` from `src/main.js`.  `nowMs` stands for `new Date()`
(used only when `dtstart` is absent; the source then truncates the
milliseconds). -/
def parseOptions (input : InputOptions) (nowMs : Int) : Except String ParsedOptions := do
  let freq0 := input.freq.getD YEARLY
  let freq := if input.byeaster.isSome then YEARLY else freq0
  if !(0 ≤ freq && freq ≤ 6) then
    throw "Invalid frequency"
  let dtstart := match input.dtstart with
    | some d => d
    | none => nowMs - nowMs % 1000
  let wkst := match input.wkst with
    | none => 0
    | some (.inl k) => k
    | some (.inr w) => w.weekday
  let bysetpos ← match input.bysetpos with
    | none => pure none
    | some (.num v) =>
      if v == 0 || !(v ≥ -366 && v ≤ 366) then
        throw "bysetpos must be between 1 and 366, or between -366 and -1"
      else pure (some [v])
    | some (.arr l) =>
      if l.any (fun v => v == 0 || !(v ≥ -366 && v ≤ 366)) then
        throw "bysetpos must be between 1 and 366, or between -366 and -1"
      else pure (some l)
  -- the day-defaulting block
  let noDayRules := !(jsBool input.byweekno || jsNotEmpty input.byweekno ||
    jsNotEmpty input.byyearday || jsBool input.bymonthday ||
    jsNotEmpty input.bymonthday || input.byweekday.isSome || input.byeaster.isSome)
  let bymonth0 :=
    if noDayRules && freq == YEARLY && !jsBool input.bymonth then
      some (NumArr.num (getUTCMonth1 dtstart))
    else input.bymonth
  let bymonthday0 :=
    if noDayRules && (freq == YEARLY || freq == MONTHLY) then
      some (NumArr.num (getUTCDate dtstart))
    else input.bymonthday
  let byweekday0 :=
    if noDayRules && freq == WEEKLY then
      some (ByWeekdayArg.multi [WdayItem.wnum (getWeekday dtstart)])
    else input.byweekday
  -- bymonth
  let bymonth : Option (List Int) := match bymonth0 with
    | none => none
    | some (.num v) => some [v]
    | some (.arr l) => some l
  -- byyearday
  let byyearday : Option (List Int) := match input.byyearday with
    | none => none
    | some (.num v) => some [v]
    | some (.arr l) => some l
  -- bymonthday / bynmonthday split
  let bymd : List Int × List Int := match bymonthday0 with
    | none => ([], [])
    | some (.arr l) => (l.filter (fun v => v > 0), l.filter (fun v => v < 0))
    | some (.num v) => if v < 0 then ([], [v]) else ([v], [])
  -- byweekno
  let byweekno : Option (List Int) := match input.byweekno with
    | none => none
    | some (.num v) => some [v]
    | some (.arr l) => some l
  -- byweekday / bynweekday split
  let bwPair : Option (List Int) × Option (List (Int × Int)) :=
    match byweekday0 with
    | none => (none, none)
    | some (.single (.wnum v)) => (some [v], none)
    | some (.single (.wstr s)) => (some [(weekdayFromStr s).weekday], none)
    | some (.single (.wobj w)) =>
      if w.n.getD 0 == 0 || freq > MONTHLY then (some [w.weekday], none)
      else (none, some [(w.weekday, w.n.getD 0)])
    | some (.multi l) =>
      let bw := l.foldl (fun acc it =>
        match it with
        | .wnum v => acc ++ [v]
        | .wstr s => acc ++ [(weekdayFromStr s).weekday]
        | .wobj w =>
          if w.n.getD 0 == 0 || freq > MONTHLY then acc ++ [w.weekday] else acc) []
      let bnw := l.foldl (fun acc it =>
        match it with
        | .wobj w =>
          if !(w.n.getD 0 == 0 || freq > MONTHLY) then acc ++ [(w.weekday, w.n.getD 0)]
          else acc
        | _ => acc) []
      ((if !bw.isEmpty then some bw else none),
       (if !bnw.isEmpty then some bnw else none))
  -- byhour / byminute / bysecond defaults
  let byhour : Option (List Int) := match input.byhour with
    | none => if freq < HOURLY then some [getUTCHours dtstart] else none
    | some (.num v) => some [v]
    | some (.arr l) => some l
  let byminute : Option (List Int) := match input.byminute with
    | none => if freq < MINUTELY then some [getUTCMinutes dtstart] else none
    | some (.num v) => some [v]
    | some (.arr l) => some l
  let bysecond : Option (List Int) := match input.bysecond with
    | none => if freq < SECONDLY then some [getUTCSeconds dtstart] else none
    | some (.num v) => some [v]
    | some (.arr l) => some l
  pure
    { freq, dtstart, interval := input.interval.getD 1, wkst,
      count := input.count, untilOpt := input.untilOpt, bysetpos,
      bymonth, bymonthday := bymd.1, bynmonthday := bymd.2, byyearday,
      byweekno, byweekday := bwPair.1, bynweekday := bwPair.2,
      byhour, byminute, bysecond, byeaster := input.byeaster }

def inC5 : InputOptions :=
  ⟨some 1, some (utcMs 2024 0 15 9 30 0 0), none, none, none, none, none, none,
   none, none, none, none, none, none, none, none⟩

def oC5 : ParsedOptions :=
  { freq := 1, dtstart := 1705311000000, interval := 1, wkst := 0,
    count := none, untilOpt := none, bysetpos := none, bymonth := none,
    bymonthday := [15], bynmonthday := [], byyearday := none, byweekno := none,
    byweekday := none, bynweekday := none, byhour := some [9],
    byminute := some [30], bysecond := some [0], byeaster := none }


def inC8 : InputOptions :=
  ⟨some 3, some 1705276800000, none, none, none, none, none, none,
   none, none, none, some (.single (.wobj ⟨1, some 2⟩)), none, none, none, none⟩
def oC8 : ParsedOptions :=
  { freq := 3, dtstart := 1705276800000, interval := 1, wkst := 0,
    count := none, untilOpt := none, bysetpos := none, bymonth := none,
    bymonthday := [], bynmonthday := [], byyearday := none, byweekno := none,
    byweekday := some [1], bynweekday := none, byhour := some [0],
    byminute := some [0], bysecond := some [0], byeaster := none }

/-! ### Concrete option sets used by the verification scenarios -/

/-- Resolved options for `freq=MONTHLY; bymonthday=[31]; dtstart=2024-01-31`. -/
def optsC1 : ParsedOptions :=
  { freq := 1, dtstart := utcMs 2024 0 31 0 0 0 0, interval := 1, wkst := 0,
    count := none, untilOpt := none, bysetpos := none, bymonth := none,
    bymonthday := [31], bynmonthday := [], byyearday := none, byweekno := none,
    byweekday := none, bynweekday := none, byhour := some [0],
    byminute := some [0], bysecond := some [0], byeaster := none }

/-- A 2024-01-31 calendar value. -/
def dtC1 : DateTime := ⟨2024, 1, 31, 0, 0, 0, 0⟩

/-- Resolved options for `freq=MONTHLY; bymonth=[2]; bymonthday=[30];
count=1; dtstart=9999-12-01`: February never has a 30th, and the `MAXYEAR`
cap stops the search before the count is served. -/
def optsC2 : ParsedOptions :=
  { freq := 1, dtstart := utcMs 9999 11 1 0 0 0 0, interval := 1, wkst := 0,
    count := some 1, untilOpt := none, bysetpos := none, bymonth := some [2],
    bymonthday := [30], bynmonthday := [], byyearday := none, byweekno := none,
    byweekday := none, bynweekday := none, byhour := some [0],
    byminute := some [0], bysecond := some [0], byeaster := none }

/-- Resolved options for `freq=DAILY; count=2; dtstart=2024-01-01`. -/
def optsC2w : ParsedOptions :=
  { freq := 3, dtstart := utcMs 2024 0 1 0 0 0 0, interval := 1, wkst := 0,
    count := some 2, untilOpt := none, bysetpos := none, bymonth := none,
    bymonthday := [], bynmonthday := [], byyearday := none, byweekno := none,
    byweekday := none, bynweekday := none, byhour := some [0],
    byminute := some [0], bysecond := some [0], byeaster := none }

/-- Resolved options for `freq=DAILY; byhour=[17,6]; dtstart=2024-01-01`:
`buildTimeset` keeps the user order of `byhour`, so each day emits 17:00
before 06:00. -/
def optsC3 : ParsedOptions :=
  { freq := 3, dtstart := utcMs 2024 0 1 0 0 0 0, interval := 1, wkst := 0,
    count := none, untilOpt := none, bysetpos := none, bymonth := none,
    bymonthday := [], bynmonthday := [], byyearday := none, byweekno := none,
    byweekday := none, bynweekday := none, byhour := some [17, 6],
    byminute := some [0], bysecond := some [0], byeaster := none }

/-- A daily rule with `count = 0`. -/
def optsC7 : ParsedOptions :=
  { freq := 3, dtstart := utcMs 2024 0 1 0 0 0 0, interval := 1, wkst := 0,
    count := some 0, untilOpt := none, bysetpos := none, bymonth := none,
    bymonthday := [], bynmonthday := [], byyearday := none, byweekno := none,
    byweekday := none, bynweekday := none, byhour := some [0],
    byminute := some [0], bysecond := some [0], byeaster := none }

/-- Same unsorted-`byhour` daily rule, for the adapter scenario. -/
def optsC9 : ParsedOptions :=
  { freq := 3, dtstart := utcMs 2024 0 1 0 0 0 0, interval := 1, wkst := 0,
    count := none, untilOpt := none, bysetpos := none, bymonth := none,
    bymonthday := [], bynmonthday := [], byyearday := none, byweekno := none,
    byweekday := none, bynweekday := none, byhour := some [17, 6],
    byminute := some [0], bysecond := some [0], byeaster := none }

end RRLib

/-! ## `parseTaskListConfig` from `src/src/state.ts` -/

namespace TQState

structure TaskListConfig where
  overdue : Bool
  due : Bool
  noDue : Bool
  completed : Option Bool
  sort : Option String
  group : Option String
  selectTags : List String
  omitTags : List String
  selectDay : Option String
  selectWeek : Option String
  deriving Repr, DecidableEq

/-- `TaskListConfigDefaults`. -/
def TaskListConfigDefaults : TaskListConfig :=
  { overdue := false, due := true, noDue := true, completed := none,
    sort := some "score", group := none, selectTags := [], omitTags := [],
    selectDay := none, selectWeek := none }

/-- JS whitespace for `String.prototype.trim` (the ASCII part). -/
def jsIsSpace (c : Char) : Bool :=
  c = ' ' || c = '\t' || c = '\n' || c = '\r'

/-- `String.prototype.trim`. -/
def jsTrim (s : String) : String :=
  ⟨((s.data.dropWhile jsIsSpace).reverse.dropWhile jsIsSpace).reverse⟩

/-- `String.prototype.split` with a single-character separator: splitting
never drops a field, and the empty string yields `[""]`. -/
def jsSplitGo (sep : Char) : List Char → List Char → List String
  | [], acc => [⟨acc.reverse⟩]
  | c :: rest, acc =>
    if c = sep then (⟨acc.reverse⟩ : String) :: jsSplitGo sep rest []
    else jsSplitGo sep rest (c :: acc)

def jsSplit (s : String) (sep : Char) : List String :=
  jsSplitGo sep s.data []

/-- The JS `^\[.*\]$` test on a (newline-free) trimmed value. -/
def looksBracketed (s : String) : Bool :=
  match s.data with
  | [] => false
  | c :: rest =>
    c = '[' && (match rest.getLast? with | some d => d = ']' | none => false)

/-- Strip the leading `[` and trailing `]`, split on commas, trim each. -/
def splitTagList (s : String) : List String :=
  ((jsSplit ⟨(s.data.drop 1).dropLast⟩ ',').map jsTrim)

/-- One iteration of the `lines.forEach` body of `parseTaskListConfig`. -/
def parseTaskListLine (state : TaskListConfig) (line : String) : TaskListConfig :=
  if line == "" then state
  else
    let parts := (jsSplit line ':').map jsTrim
    if parts.length != 2 then state
    else
      let key := parts.getD 0 ""
      let value := parts.getD 1 ""
      if key == "overdue" then { state with overdue := value == "true" }
      else if key == "due" then { state with due := value == "true" }
      else if key == "no-due" then { state with noDue := value == "true" }
      else if key == "completed" then { state with completed := some (value == "true") }
      else if key == "sort" then
        if value == "due" then { state with sort := some "due" }
        else if value == "score" then { state with sort := some "score" }
        else { state with sort := none }
      else if key == "group" then
        if value == "due" then { state with group := some "due" }
        else if value == "completed" then { state with group := some "completed" }
        else { state with group := none }
      else if key == "select-tags" then
        if looksBracketed value then { state with selectTags := splitTagList value }
        else { state with selectTags := [value] }
      else if key == "omit-tags" then
        if looksBracketed value then { state with omitTags := splitTagList value }
        else { state with omitTags := [value] }
      else if key == "select-day" then { state with selectDay := some value, due := true }
      else if key == "select-week" then { state with selectWeek := some value, due := true }
      else state

/-- `parseTaskListConfig`: fold the line handler over the input starting
from the defaults.  The function is total by construction — the JS body has
no throwing operation, only `console.error` diagnostics. -/
def parseTaskListConfig (lines : List String) : TaskListConfig :=
  lines.foldl parseTaskListLine TaskListConfigDefaults

end TQState

/-! ## Verification: properties of the embedded engine -/

namespace RRLib


theorem cacheFilter_mAll : ∀ (l : List Int), cacheFilter .mAll l = l
  | [] => rfl
  | d :: rest => by
    simp only [cacheFilter, acceptDecision, ite_true]
    simpa using cacheFilter_mAll rest

/-- Fusing the cached-`all` replay with the direct run: processing a
candidate stream in mode `m` gives the same emitted list as processing it
in `all` mode and replaying the result through `m`'s accept policy. -/
theorem runCands_fusion (m : QMethod) (dtstart : Int) (untilOpt : Option Int) :
    ∀ (cands : List Int) (count : Option Int),
      runCands m dtstart untilOpt cands count =
        cacheFilter m (runCands .mAll dtstart untilOpt cands count)
  | [], _ => rfl
  | r :: rest, count => by
    simp only [runCands]
    split
    · rfl
    · split
      · -- r ≥ dtstart
        have hall : acceptDecision .mAll r = (true, true) := rfl
        simp only [hall]
        by_cases hcs : (countStep count).2
        · simp only [hcs, if_true, Bool.not_true, if_false, cacheFilter]
          rcases hdec : acceptDecision m r with ⟨e, c⟩
          cases e <;> cases c <;> simp
        · simp only [hcs, if_false, Bool.not_true, cacheFilter]
          rcases hdec : acceptDecision m r with ⟨e, c⟩
          have ih := runCands_fusion m dtstart untilOpt rest (countStep count).1
          cases e <;> cases c <;> simp [ih]
      · exact runCands_fusion m dtstart untilOpt rest count

/-- Replaying a list through the `after` accept policy keeps exactly the
first entry at or past `minDate`. -/
theorem cacheFilter_after (dt : Int) (inc : Bool) :
    ∀ l : List Int, cacheFilter (.mAfter dt inc) l =
      (l.find? (fun d => decide ((if inc then dt else dt + 1) ≤ d))).toList
  | [] => rfl
  | d :: rest => by
    simp only [cacheFilter, acceptDecision, QMethod.minDate, QMethod.maxDate, List.find?]
    by_cases h : d < (if inc then dt else dt + 1)
    · have hp : (decide ((if inc then dt else dt + 1) ≤ d)) = false := by
        simp only [decide_eq_false_iff_not]; omega
      simp [h, hp, cacheFilter_after dt inc rest]
    · have hp : (decide ((if inc then dt else dt + 1) ≤ d)) = true := by
        simp only [decide_eq_true_eq]; omega
      simp [h, hp]

/-- `all` processing with no `count` and no `until` emits exactly the
candidates at or after `dtstart`. -/
theorem runCands_all_unbounded (dtstart : Int) :
    ∀ cands, runCands .mAll dtstart none cands none =
      cands.filter (fun r => decide (dtstart ≤ r))
  | [] => rfl
  | r :: rest => by
    simp only [runCands, countStep, acceptDecision]
    by_cases h : dtstart ≤ r
    · simp [h, runCands_all_unbounded dtstart rest]
    · have : ¬ r ≥ dtstart := h
      simp [this, h, runCands_all_unbounded dtstart rest]

/-- `all` processing with `count = N > 0` and no `until` emits the first
`N` candidates at or after `dtstart` (and candidates below `dtstart` do
not consume the count). -/
theorem runCands_all_count_take (dtstart : Int) :
    ∀ (cands : List Int) (N : Int), 0 < N →
      runCands .mAll dtstart none cands (some N) =
        (cands.filter (fun r => decide (dtstart ≤ r))).take N.toNat
  | [], N, _ => by simp [runCands]
  | r :: rest, N, hN => by
    simp only [runCands, countStep, acceptDecision]
    by_cases h : dtstart ≤ r
    · have hne : (N != 0) = true := by simp; omega
      have hfc : (r :: rest).filter (fun x => decide (dtstart ≤ x)) =
          r :: rest.filter (fun x => decide (dtstart ≤ x)) := by
        simp [List.filter_cons, h]
      by_cases h1 : N - 1 = 0
      · have hN1 : N = 1 := by omega
        subst hN1
        have hb : ((1 - 1 : Int) == 0) = true := by norm_num
        simp [h, hne, hb, hfc]
      · have hN1 : 0 < N - 1 := by omega
        have ih := runCands_all_count_take dtstart rest (N - 1) hN1
        have htn : N.toNat = (N - 1).toNat + 1 := by omega
        have hb : ((N - 1 : Int) == 0) = false := by simp [h1]
        simp only [h, hne, hb, ih, htn, hfc]
        simp [ih]
    · have : ¬ r ≥ dtstart := h
      simp [this, h, runCands_all_count_take dtstart rest N hN]

/-- The callback sink `(_, len) => len < n` truncates the `all` emission to
its first `n - k` entries. -/
theorem runCandsCb_take (n : Nat) (dtstart : Int) (untilOpt : Option Int) :
    ∀ (cands : List Int) (k : Nat) (count : Option Int),
      runCandsCb (fun _ len => decide (len < n)) dtstart untilOpt cands k count =
        (runCands .mAll dtstart untilOpt cands count).take (n - k)
  | [], _, _ => by simp [runCandsCb, runCands]
  | r :: rest, k, count => by
    simp only [runCandsCb, runCands, acceptDecision]
    split
    · simp
    · split
      · -- r ≥ dtstart
        by_cases hk : k < n
        · have hnk : n - k = (n - (k + 1)) + 1 := by omega
          by_cases hcs : (countStep count).2
          · simp [hk, hcs, hnk]
          · simp [hk, hcs, hnk, runCandsCb_take n dtstart untilOpt rest (k + 1) (countStep count).1]
        · have hnk : n - k = 0 := by omega
          simp [hk, hnk]
      · exact runCandsCb_take n dtstart untilOpt rest k count

/-- `all`-mode processing of an extended stream extends the emitted list. -/
theorem runCands_all_append (dtstart : Int) (untilOpt : Option Int) :
    ∀ (s t : List Int) (count : Option Int), ∃ X,
      runCands .mAll dtstart untilOpt (s ++ t) count =
        runCands .mAll dtstart untilOpt s count ++ X
  | [], t, count => ⟨runCands .mAll dtstart untilOpt t count, by simp [runCands]⟩
  | r :: rest, t, count => by
    simp only [List.cons_append, runCands]
    split
    · exact ⟨[], by simp⟩
    · split
      · have hall : acceptDecision .mAll r = (true, true) := rfl
        simp only [hall]
        by_cases hcs : (countStep count).2
        · exact ⟨[], by simp [hcs]⟩
        · obtain ⟨X, hX⟩ := runCands_all_append dtstart untilOpt rest t (countStep count).1
          exact ⟨X, by simp [hcs, hX]⟩
      · exact runCands_all_append dtstart untilOpt rest t count

/-- The `after` run over an extended candidate stream is unchanged once the
`all` emission of the first part already contains a hit: the remainder of
the series is never enumerated. -/
theorem runCands_after_early_exit (dt : Int) (inc : Bool) (dtstart : Int)
    (untilOpt : Option Int) (s t : List Int) (count : Option Int)
    (h : ((runCands .mAll dtstart untilOpt s count).find?
        (fun d => decide ((if inc then dt else dt + 1) ≤ d))).isSome = true) :
    runCands (.mAfter dt inc) dtstart untilOpt (s ++ t) count =
      runCands (.mAfter dt inc) dtstart untilOpt s count := by
  obtain ⟨X, hX⟩ := runCands_all_append dtstart untilOpt s t count
  rw [runCands_fusion (.mAfter dt inc) dtstart untilOpt (s ++ t) count,
    runCands_fusion (.mAfter dt inc) dtstart untilOpt s count, hX,
    cacheFilter_after, cacheFilter_after, List.find?_append]
  obtain ⟨d, hd⟩ := Option.isSome_iff_exists.mp h
  simp [hd]

/-- C4: replaying a cached complete `all` occurrence list through a
before/after/between accept policy returns the same result as running the
iterator directly in that mode. -/
theorem c4_cached_query_refines_direct (fuel : Nat) (o : ParsedOptions) (m : QMethod) :
    cachedQuery fuel o m = directQuery fuel o m := by
  unfold cachedQuery directQuery iterResultList
  split
  · rfl
  · rw [← runCands_fusion]

theorem afterQuery_eq_find (fuel : Nat) (o : ParsedOptions) (dt : Int) (inc : Bool) :
    afterQuery fuel o dt inc =
      (allQuery fuel o).find? (fun d => decide ((if inc then dt else dt + 1) ≤ d)) := by
  unfold afterQuery allQuery iterResultList
  split
  · rfl
  · rw [runCands_fusion, cacheFilter_after]
    cases h : List.find? (fun d => decide ((if inc then dt else dt + 1) ≤ d))
      (runCands QMethod.mAll o.dtstart o.untilOpt (candStream fuel o) o.count) <;> simp [h]

/-- C2 (amended): with `count = N > 0` and no `until`, `all` emits the first
`N` candidates at or past `dtstart` (candidates below `dtstart` are skipped
without consuming the count), and emits exactly `N` whenever the candidate
stream supplies that many; the original "exactly N always" fails when the
`MAXYEAR` cap starves the stream (see the counterexample). -/
theorem c2_count_take (fuel : Nat) (o : ParsedOptions) (N : Int)
    (hc : o.count = some N) (hN : 0 < N) (hu : o.untilOpt = none) (hi : o.interval ≠ 0) :
    allQuery fuel o =
      ((candStream fuel o).filter (fun r => decide (o.dtstart ≤ r))).take N.toNat ∧
    (N.toNat ≤ ((candStream fuel o).filter (fun r => decide (o.dtstart ≤ r))).length →
      (allQuery fuel o).length = N.toNat) := by
  have hg : (o.count == some 0 || o.interval == 0) = false := by
    simp [hc, hi]
    omega
  have h1 : allQuery fuel o =
      ((candStream fuel o).filter (fun r => decide (o.dtstart ≤ r))).take N.toNat := by
    unfold allQuery iterResultList
    rw [if_neg (by simp [hg])]
    rw [hc, hu]
    exact runCands_all_count_take o.dtstart (candStream fuel o) N hN
  refine ⟨h1, fun hlen => ?_⟩
  rw [h1, List.length_take]
  omega

/-- C9 (amended): `RepeatAdapter.next(n)` returns exactly the first `n`
entries of the `all` emission, with length `min n (length all)`; the
emission order is not guaranteed chronological (see the counterexample). -/
theorem c9_adapter_next_take (fuel : Nat) (o : ParsedOptions) (n : Nat) :
    adapterNext fuel o n = (allQuery fuel o).take n ∧
    (adapterNext fuel o n).length = min n (allQuery fuel o).length := by
  have h1 : adapterNext fuel o n = (allQuery fuel o).take n := by
    unfold adapterNext allWithIterator allQuery iterResultList
    split
    · simp
    · rw [runCandsCb_take]
      simp
  exact ⟨h1, by rw [h1, List.length_take]⟩

/-- C7: a spec with `count = 0` or `interval = 0` makes every query mode
return an empty result immediately (empty list, `none` for the single-value
modes), with no occurrence generation at any fuel. -/
theorem c7_zero_guard (fuel : Nat) (o : ParsedOptions) (m : QMethod)
    (a b dt : Int) (inc : Bool)
    (h : o.count = some 0 ∨ o.interval = 0) :
    allQuery fuel o = [] ∧ betweenQuery fuel o a b inc = [] ∧
    beforeQuery fuel o dt inc = none ∧ afterQuery fuel o dt inc = none ∧
    (∀ g, iterResultList g o m = iterResultList fuel o m) := by
  have hg : (o.count == some 0 || o.interval == 0) = true := by
    rcases h with h | h <;> simp [h]
  refine ⟨?_, ?_, ?_, ?_, fun g => ?_⟩ <;>
    simp [allQuery, betweenQuery, beforeQuery, afterQuery, iterResultList, hg]

theorem fdiv_small {a b : Int} (h0 : 0 ≤ a) (hb : a < b) : Int.fdiv a b = 0 := by
  rw [Int.fdiv_eq_ediv _ (by omega)]
  exact Int.ediv_eq_zero_of_lt h0 hb

/-- January 1 to January 1 is the length of the year. -/
theorem dayFromYear_succ (y : Int) :
    dayFromYear (y + 1) = dayFromYear y + (if isLeapYear y then 366 else 365) := by
  unfold dayFromYear isLeapYear
  rw [Int.fdiv_eq_ediv _ (by norm_num), Int.fdiv_eq_ediv _ (by norm_num),
    Int.fdiv_eq_ediv _ (by norm_num), Int.fdiv_eq_ediv _ (by norm_num),
    Int.fdiv_eq_ediv _ (by norm_num), Int.fdiv_eq_ediv _ (by norm_num)]
  by_cases h4 : y % 4 = 0 <;> by_cases h100 : y % 100 = 0 <;> by_cases h400 : y % 400 = 0 <;>
    simp [h4, h100, h400] <;> omega

theorem emod_eq_mod (a b : Int) : Int.emod a b = a % b := rfl

theorem monthRange_snd (y m0 : Int) (h0 : 0 ≤ m0) (h12 : m0 < 12) :
    (monthRange y m0).2 = getMonthDays0 y m0 := by
  unfold monthRange
  rw [emod_eq_mod, fdiv_small h0 h12, Int.emod_eq_of_lt h0 h12]
  simp

theorem monthOffset_step (y m0 : Int) (h0 : 0 ≤ m0) (h10 : m0 ≤ 10) :
    monthOffset (isLeapYear y) (m0 + 1) = monthOffset (isLeapYear y) m0 + getMonthDays0 y m0 := by
  obtain ⟨k, hk⟩ : ∃ k : Nat, m0 = (k : Int) := ⟨m0.toNat, by omega⟩
  subst hk
  have hk10 : k ≤ 10 := by omega
  interval_cases k <;> cases hl : isLeapYear y <;>
    simp [monthOffset, getMonthDays0, MONTH_DAYS, hl]

theorem makeDay_step_month (y m0 d : Int) (h0 : 0 ≤ m0) (h10 : m0 ≤ 10) :
    makeDay y (m0 + 1) (d - getMonthDays0 y m0) = makeDay y m0 d := by
  unfold makeDay
  rw [emod_eq_mod, emod_eq_mod, fdiv_small h0 (by omega),
    fdiv_small (by omega : (0:Int) ≤ m0 + 1) (by omega),
    Int.emod_eq_of_lt h0 (by omega), Int.emod_eq_of_lt (by omega : (0:Int) ≤ m0 + 1) (by omega)]
  have := monthOffset_step y m0 h0 h10
  simp only [add_zero]
  omega

theorem makeDay_step_year (y d : Int) :
    makeDay (y + 1) 0 (d - 31) = makeDay y 11 d := by
  unfold makeDay
  rw [emod_eq_mod, emod_eq_mod, fdiv_small (by norm_num) (by norm_num),
    Int.emod_eq_of_lt (by norm_num) (by norm_num),
    fdiv_small (by norm_num : (0:Int) ≤ 11) (by norm_num),
    Int.emod_eq_of_lt (by norm_num : (0:Int) ≤ 11) (by norm_num)]
  have hy := dayFromYear_succ y
  cases hl : isLeapYear y <;> simp_all [monthOffset] <;> omega

/-- The `fixDay` loop preserves the denoted absolute day (it carries the
excess forward rather than clamping), keeps the month in range, never
decreases the year, and — whenever it stops within the supported years —
leaves a day that fits its month. -/
theorem fixDayGo_spec : ∀ (y m d : Int), 1 ≤ m → m ≤ 12 → 1 ≤ d →
    makeDay (fixDayGo y m d).1 ((fixDayGo y m d).2.1 - 1) (fixDayGo y m d).2.2
        = makeDay y (m - 1) d ∧
    1 ≤ (fixDayGo y m d).2.1 ∧ (fixDayGo y m d).2.1 ≤ 12 ∧
    1 ≤ (fixDayGo y m d).2.2 ∧ y ≤ (fixDayGo y m d).1 ∧
    ((fixDayGo y m d).1 ≤ MAXYEAR →
      (fixDayGo y m d).2.2 ≤ (monthRange (fixDayGo y m d).1 ((fixDayGo y m d).2.1 - 1)).2) := by
  intro y m d
  induction y, m, d using fixDayGo.induct with
  | case1 y m d dim hfit =>
    intro hm1 hm2 hd
    rw [fixDayGo, if_pos hfit]
    exact ⟨rfl, hm1, hm2, hd, le_refl _, fun _ => hfit⟩
  | case2 y m d dim hnd h13 hy =>
    intro hm1 hm2 hd
    rw [fixDayGo, if_neg hnd, if_pos h13, if_pos hy]
    have hm12 : m = 12 := by
      have h : m + 1 = 13 := by simpa using h13
      omega
    subst hm12
    have h11 : (12 : Int) - 1 = 11 := by norm_num
    have hdim : (monthRange y ((12 : Int) - 1)).2 = 31 := by
      rw [h11, monthRange_snd y 11 (by norm_num) (by norm_num)]
      simp [getMonthDays0, MONTH_DAYS]
    constructor
    · show makeDay (y + 1) (1 - 1) (d - (monthRange y (12 - 1)).2) = makeDay y (12 - 1) d
      rw [hdim]
      have h0 : (1 : Int) - 1 = 0 := by norm_num
      rw [h0, h11]
      exact makeDay_step_year y d
    · have : 1 ≤ d - (monthRange y ((12 : Int) - 1)).2 := by
        simp only [hdim]
        omega
      exact ⟨by norm_num, by norm_num, this, by omega, fun hcap => absurd hcap (by omega)⟩
  | case3 y m d dim hnd dayp h13 hy ih =>
    intro hm1 hm2 hd
    rw [fixDayGo, if_neg hnd, if_pos h13, if_neg hy]
    have hm12 : m = 12 := by
      have h : m + 1 = 13 := by simpa using h13
      omega
    subst hm12
    rw [show dayp = d - (monthRange y ((12 : Int) - 1)).2 from rfl] at ih
    have h11 : (12 : Int) - 1 = 11 := by norm_num
    have hdim : (monthRange y ((12 : Int) - 1)).2 = 31 := by
      rw [h11, monthRange_snd y 11 (by norm_num) (by norm_num)]
      simp [getMonthDays0, MONTH_DAYS]
    have hd' : 1 ≤ d - (monthRange y ((12 : Int) - 1)).2 := by
      simp only [hdim]
      omega
    obtain ⟨hpres, hmo1, hmo2, hdy1, hyr, hcap⟩ := ih (by norm_num) (by norm_num) hd'
    refine ⟨?_, hmo1, hmo2, hdy1, by omega, hcap⟩
    rw [hpres]
    show makeDay (y + 1) (1 - 1) (d - (monthRange y (12 - 1)).2) = makeDay y (12 - 1) d
    rw [hdim]
    have h0 : (1 : Int) - 1 = 0 := by norm_num
    rw [h0, h11]
    exact makeDay_step_year y d
  | case4 y m d dim hnd dayp h13 ih =>
    intro hm1 hm2 hd
    rw [fixDayGo, if_neg hnd, if_neg h13]
    have hm11 : m ≤ 11 := by
      have h : ¬ (m + 1 = 13) := by
        intro hc
        exact h13 (by simp [hc])
      omega
    rw [show dayp = d - (monthRange y (m - 1)).2 from rfl] at ih
    have hdim : (monthRange y (m - 1)).2 = getMonthDays0 y (m - 1) :=
      monthRange_snd y (m - 1) (by omega) (by omega)
    have hd' : 1 ≤ d - (monthRange y (m - 1)).2 := by omega
    obtain ⟨hpres, hmo1, hmo2, hdy1, hyr, hcap⟩ := ih (by omega) (by omega) hd'
    refine ⟨?_, hmo1, hmo2, hdy1, hyr, hcap⟩
    rw [hpres]
    have hstep := makeDay_step_month y (m - 1) d (by omega) (by omega)
    rw [hdim]
    have hmm : m - 1 + 1 = m := by omega
    have hmm2 : m + 1 - 1 = m := by omega
    rw [hmm2, ← hmm]
    simpa using hstep

theorem addHoursGo_mono (hours : Int) (byhour : Option (List Int)) :
    ∀ (f g : Nat) (dt r : DateTime), f ≤ g →
      addHoursGo hours byhour f dt = some r → addHoursGo hours byhour g dt = some r
  | 0, _, _, _, _, h => by simp [addHoursGo] at h
  | f + 1, g, dt, r, hfg, h => by
    obtain ⟨g', rfl⟩ : ∃ g', g = g' + 1 := ⟨g - 1, by omega⟩
    rw [addHoursGo] at h
    rw [addHoursGo]
    set dt' := (if ((divmod (dt.hour + hours) 24).1 != 0) = true then
        DateTime.addDaily (divmod (dt.hour + hours) 24).1
          { dt with hour := (divmod (dt.hour + hours) 24).2 }
      else { dt with hour := dt.hour + hours }) with hdt'
    split at h
    · rwa [if_pos (by assumption)]
    · rw [if_neg (by assumption)]
      exact addHoursGo_mono hours byhour f g' dt' r (by omega) h

theorem addHours_mono (fuel g : Nat) (hours : Int) (filtered : Bool)
    (byhour : Option (List Int)) (dt r : DateTime) (hfg : fuel ≤ g)
    (h : DateTime.addHours fuel hours filtered byhour dt = some r) :
    DateTime.addHours g hours filtered byhour dt = some r := by
  unfold DateTime.addHours at h ⊢
  exact addHoursGo_mono hours byhour fuel g _ r hfg h

theorem addMinutesGo_mono (minutes : Int) (byhour byminute : Option (List Int)) :
    ∀ (f g : Nat) (dt r : DateTime), f ≤ g →
      addMinutesGo minutes byhour byminute f dt = some r →
      addMinutesGo minutes byhour byminute g dt = some r
  | 0, _, _, _, _, h => by simp [addMinutesGo] at h
  | f + 1, g, dt, r, hfg, h => by
    obtain ⟨g', rfl⟩ : ∃ g', g = g' + 1 := ⟨g - 1, by omega⟩
    rw [addMinutesGo] at h
    rw [addMinutesGo]
    rcases hstep : (if ((divmod (dt.minute + minutes) 60).1 != 0) = true then
        DateTime.addHours (f + 1) (divmod (dt.minute + minutes) 60).1 false byhour
          { dt with minute := (divmod (dt.minute + minutes) 60).2 }
      else some { dt with minute := dt.minute + minutes }) with _ | dt'
    · simp only [hstep] at h
      exact absurd h (by simp)
    · simp only [hstep] at h
      have hstep' : (if ((divmod (dt.minute + minutes) 60).1 != 0) = true then
          DateTime.addHours (g' + 1) (divmod (dt.minute + minutes) 60).1 false byhour
            { dt with minute := (divmod (dt.minute + minutes) 60).2 }
        else some { dt with minute := dt.minute + minutes }) = some dt' := by
        split at hstep
        · rw [if_pos (by assumption)]
          exact addHours_mono (f + 1) (g' + 1) _ false byhour _ dt' (by omega) hstep
        · rwa [if_neg (by assumption)]
      simp only [hstep']
      split at h
      · rwa [if_pos (by assumption)]
      · rw [if_neg (by assumption)]
        exact addMinutesGo_mono minutes byhour byminute f g' dt' r (by omega) h

theorem addMinutes_mono (fuel g : Nat) (minutes : Int) (filtered : Bool)
    (byhour byminute : Option (List Int)) (dt r : DateTime) (hfg : fuel ≤ g)
    (h : DateTime.addMinutes fuel minutes filtered byhour byminute dt = some r) :
    DateTime.addMinutes g minutes filtered byhour byminute dt = some r := by
  unfold DateTime.addMinutes at h ⊢
  exact addMinutesGo_mono minutes byhour byminute fuel g _ r hfg h

theorem addSecondsGo_mono (seconds : Int) (byhour byminute bysecond : Option (List Int)) :
    ∀ (f g : Nat) (dt r : DateTime), f ≤ g →
      addSecondsGo seconds byhour byminute bysecond f dt = some r →
      addSecondsGo seconds byhour byminute bysecond g dt = some r
  | 0, _, _, _, _, h => by simp [addSecondsGo] at h
  | f + 1, g, dt, r, hfg, h => by
    obtain ⟨g', rfl⟩ : ∃ g', g = g' + 1 := ⟨g - 1, by omega⟩
    rw [addSecondsGo] at h
    rw [addSecondsGo]
    rcases hstep : (if ((divmod (dt.second + seconds) 60).1 != 0) = true then
        DateTime.addMinutes (f + 1) (divmod (dt.second + seconds) 60).1 false byhour byminute
          { dt with second := (divmod (dt.second + seconds) 60).2 }
      else some { dt with second := dt.second + seconds }) with _ | dt'
    · simp only [hstep] at h
      exact absurd h (by simp)
    · simp only [hstep] at h
      have hstep' : (if ((divmod (dt.second + seconds) 60).1 != 0) = true then
          DateTime.addMinutes (g' + 1) (divmod (dt.second + seconds) 60).1 false byhour byminute
            { dt with second := (divmod (dt.second + seconds) 60).2 }
        else some { dt with second := dt.second + seconds }) = some dt' := by
        split at hstep
        · rw [if_pos (by assumption)]
          exact addMinutes_mono (f + 1) (g' + 1) _ false byhour byminute _ dt' (by omega) hstep
        · rwa [if_neg (by assumption)]
      simp only [hstep']
      split at h
      · rwa [if_pos (by assumption)]
      · rw [if_neg (by assumption)]
        exact addSecondsGo_mono seconds byhour byminute bysecond f g' dt' r (by omega) h

theorem addSeconds_mono (fuel g : Nat) (seconds : Int) (filtered : Bool)
    (byhour byminute bysecond : Option (List Int)) (dt r : DateTime) (hfg : fuel ≤ g)
    (h : DateTime.addSeconds fuel seconds filtered byhour byminute bysecond dt = some r) :
    DateTime.addSeconds g seconds filtered byhour byminute bysecond dt = some r := by
  unfold DateTime.addSeconds at h ⊢
  exact addSecondsGo_mono seconds byhour byminute bysecond fuel g _ r hfg h

/-- More fuel never changes a successful `DateTime.add`. -/
theorem DateTime_add_mono (fuel g : Nat) (o : ParsedOptions) (filtered : Bool)
    (dt r : DateTime) (hfg : fuel ≤ g)
    (h : DateTime.add fuel o filtered dt = some r) :
    DateTime.add g o filtered dt = some r := by
  unfold DateTime.add at h ⊢
  by_cases h0 : (o.freq == YEARLY) = true
  · simp only [h0, if_true] at h ⊢; exact h
  · simp only [h0, if_false] at h ⊢
    by_cases h1 : (o.freq == MONTHLY) = true
    · simp only [h1, if_true] at h ⊢; exact h
    · simp only [h1, if_false] at h ⊢
      by_cases h2 : (o.freq == WEEKLY) = true
      · simp only [h2, if_true] at h ⊢; exact h
      · simp only [h2, if_false] at h ⊢
        by_cases h3 : (o.freq == DAILY) = true
        · simp only [h3, if_true] at h ⊢; exact h
        · simp only [h3, if_false] at h ⊢
          by_cases h4 : (o.freq == HOURLY) = true
          · simp only [h4, if_true] at h ⊢
            exact addHours_mono fuel g _ filtered _ dt r hfg h
          · simp only [h4, if_false] at h ⊢
            by_cases h5 : (o.freq == MINUTELY) = true
            · simp only [h5, if_true] at h ⊢
              exact addMinutes_mono fuel g _ filtered _ _ dt r hfg h
            · simp only [h5, if_false] at h ⊢
              by_cases h6 : (o.freq == SECONDLY) = true
              · simp only [h6, if_true] at h ⊢
                exact addSeconds_mono fuel g _ filtered _ _ _ dt r hfg h
              · simp only [h6, if_false] at h ⊢; exact h

set_option linter.dupNamespace false

/-- More fuel only appends further periods to the candidate stream. -/
theorem candStreamGo_mono (o : ParsedOptions) :
    ∀ (f g : Nat) (c : DateTime) (ts : List Time), f ≤ g →
      ∃ X, (candStreamGo o g c ts).1 = (candStreamGo o f c ts).1 ++ X
  | 0, g, c, ts, _ => ⟨(candStreamGo o g c ts).1, by rw [candStreamGo]; simp⟩
  | f + 1, g, c, ts, hfg => by
    obtain ⟨g', rfl⟩ : ∃ g', g = g' + 1 := ⟨g - 1, by omega⟩
    rw [candStreamGo, candStreamGo]
    by_cases hint : (o.interval == 0) = true
    · rw [if_pos hint, if_pos hint]
      exact ⟨[], by simp⟩
    · rw [if_neg hint, if_neg hint]
      cases hadd : DateTime.add (f + 1) o
          (periodCandidates o (Iterinfo.rebuild o c.year c.month) c ts).2 c with
      | none =>
        simp only [hadd]
        cases hadd2 : DateTime.add (g' + 1) o
            (periodCandidates o (Iterinfo.rebuild o c.year c.month) c ts).2 c with
        | none => exact ⟨[], by simp⟩
        | some c' =>
          simp only [hadd2]
          by_cases hy : c'.year > MAXYEAR
          · rw [if_pos hy]
            exact ⟨[], by simp⟩
          · rw [if_neg hy]
            exact ⟨_, rfl⟩
      | some c' =>
        have hadd2 := DateTime_add_mono (f + 1) (g' + 1) o _ c c' (by omega) hadd
        simp only [hadd, hadd2]
        by_cases hy : c'.year > MAXYEAR
        · rw [if_pos hy, if_pos hy]
          exact ⟨[], by simp⟩
        · rw [if_neg hy, if_neg hy]
          obtain ⟨X, hX⟩ := candStreamGo_mono o f g' c'
            (if !freqIsDailyOrGreater o.freq then
              gettimeset o o.freq c'.hour c'.minute c'.second 0
            else ts) (by omega)
          exact ⟨X, by simpa using hX⟩

/-- More fuel only appends candidates to the stream. -/
theorem candStream_mono (o : ParsedOptions) (f g : Nat) (hfg : f ≤ g) :
    ∃ X, candStream g o = candStream f o ++ X := by
  unfold candStream
  exact candStreamGo_mono o f g _ _ hfg

/-- Everything the cache replay emits comes from the cached list. -/
theorem cacheFilter_subset (m : QMethod) (x : Int) :
    ∀ l, x ∈ cacheFilter m l → x ∈ l
  | [], h => by simpa [cacheFilter] using h
  | d :: rest, h => by
    rw [cacheFilter] at h
    rcases List.mem_append.mp h with h1 | h2
    · split at h1
      · simp at h1
        simp [h1]
      · simp at h1
    · split at h2
      · exact List.mem_cons_of_mem d (cacheFilter_subset m x rest h2)
      · simp at h2

/-- Everything the iteration emits is a candidate of the stream. -/
theorem runCands_subset (m : QMethod) (dtstart : Int) (untilOpt : Option Int) (x : Int) :
    ∀ (cands : List Int) (count : Option Int),
      x ∈ runCands m dtstart untilOpt cands count → x ∈ cands
  | [], count, h => by simpa [runCands] using h
  | r :: rest, count, h => by
    simp only [runCands] at h
    split at h
    · simp at h
    · split at h
      · have hsub : x ∈ (if (acceptDecision m r).1 then [r] else []) → x ∈ r :: rest := by
          intro hx
          split at hx
          · simp at hx
            simp [hx]
          · simp at hx
        split at h
        · exact hsub h
        · split at h
          · exact hsub h
          · rcases List.mem_append.mp h with h1 | h1
            · exact hsub h1
            · exact List.mem_cons_of_mem r (runCands_subset m dtstart untilOpt x rest _ h1)
      · exact List.mem_cons_of_mem r (runCands_subset m dtstart untilOpt x rest count h)

theorem iterResultList_subset (fuel : Nat) (o : ParsedOptions) (m : QMethod) (x : Int)
    (h : x ∈ iterResultList fuel o m) : x ∈ candStream fuel o := by
  unfold iterResultList at h
  split at h
  · simp at h
  · exact runCands_subset m o.dtstart o.untilOpt x (candStream fuel o) o.count h

theorem sortInts_perm (l : List Int) : (sortInts l).Perm l :=
  List.mergeSort_perm l _

theorem bymd_pair_append (x : Int) :
    (if x < 0 then (([] : List Int), [x]) else ([x], [])).1
      ++ (if x < 0 then (([] : List Int), [x]) else ([x], [])).2 = [x] := by
  split <;> simp

theorem bymd_pair_pos (x : Int) (hx : 0 ≤ x) :
    (if x < 0 then (([] : List Int), [x]) else ([x], [])) = ([x], []) := by
  rw [if_neg (by omega)]

/-- `parseOptions` day-rule defaulting, Monthly case. -/
theorem c5aux_monthly (input : InputOptions) (nowMs : Int) (o : ParsedOptions)
    (hwn : input.byweekno = none) (hyd : input.byyearday = none)
    (hmd : input.bymonthday = none) (hwd : input.byweekday = none)
    (hea : input.byeaster = none)
    (hfr : input.freq = some MONTHLY)
    (hok : parseOptions input nowMs = Except.ok o) :
    o.bymonthday ++ o.bynmonthday = [getUTCDate o.dtstart] ∧
    (0 ≤ getUTCDate o.dtstart →
      o.bymonthday = [getUTCDate o.dtstart] ∧ o.bynmonthday = []) := by
  obtain ⟨f, dts, itv, wk, cnt, unt, bsp, bm, bmd, byd, bwn, bwd, bh, bmin, bsec, bea⟩ := input
  simp only [] at hwn hyd hmd hwd hea hfr
  subst hwn hyd hmd hwd hea hfr
  rcases bsp with _ | ⟨v | l⟩ <;>
    simp [parseOptions, jsBool, jsNotEmpty, MONTHLY, YEARLY, HOURLY, MINUTELY, SECONDLY,
      WEEKLY, pure, bind, Except.pure, Except.bind, throw, throwThe, MonadExceptOf.throw] at hok
  · subst hok
    refine ⟨by simp [bymd_pair_append], fun hx => ?_⟩
    simp only []
    rw [bymd_pair_pos _ hx]
    simp
  · split at hok
    · simp at hok
    · simp at hok
      subst hok
      refine ⟨by simp [bymd_pair_append], fun hx => ?_⟩
      simp only []
      rw [bymd_pair_pos _ hx]
      simp
  · split at hok
    · simp at hok
    · simp at hok
      subst hok
      refine ⟨by simp [bymd_pair_append], fun hx => ?_⟩
      simp only []
      rw [bymd_pair_pos _ hx]
      simp

/-- `parseOptions` day-rule defaulting, Yearly case. -/
theorem c5aux_yearly (input : InputOptions) (nowMs : Int) (o : ParsedOptions)
    (hwn : input.byweekno = none) (hyd : input.byyearday = none)
    (hmd : input.bymonthday = none) (hwd : input.byweekday = none)
    (hea : input.byeaster = none)
    (hfr : input.freq = some YEARLY)
    (hok : parseOptions input nowMs = Except.ok o) :
    (input.bymonth = none → o.bymonth = some [getUTCMonth1 o.dtstart]) ∧
    (∀ m, input.bymonth = some (NumArr.num m) → ¬ m = 0 → o.bymonth = some [m]) ∧
    (∀ ml, input.bymonth = some (NumArr.arr ml) → o.bymonth = some ml) ∧
    o.bymonthday ++ o.bynmonthday = [getUTCDate o.dtstart] ∧
    (0 ≤ getUTCDate o.dtstart →
      o.bymonthday = [getUTCDate o.dtstart] ∧ o.bynmonthday = []) := by
  obtain ⟨f, dts, itv, wk, cnt, unt, bsp, bm, bmd, byd, bwn, bwd, bh, bmin, bsec, bea⟩ := input
  simp only [] at hwn hyd hmd hwd hea hfr
  subst hwn hyd hmd hwd hea hfr
  rcases bsp with _ | ⟨v | l⟩ <;>
    simp [parseOptions, jsBool, jsNotEmpty, MONTHLY, YEARLY, HOURLY, MINUTELY, SECONDLY,
      WEEKLY, pure, bind, Except.pure, Except.bind, throw, throwThe, MonadExceptOf.throw] at hok
  case none =>
    subst hok
    refine ⟨?_, ?_, ?_, by simp [bymd_pair_append], fun hx => ?_⟩
    · intro hbm
      subst hbm
      simp [jsBool]
    · intro m hm hm0
      subst hm
      simp [jsBool, hm0]
    · intro ml hml
      subst hml
      simp [jsBool]
    · simp only []
      rw [bymd_pair_pos _ hx]
      simp
  all_goals
    split at hok
    · simp at hok
    · simp at hok
      subst hok
      refine ⟨?_, ?_, ?_, by simp [bymd_pair_append], fun hx => ?_⟩
      · intro hbm
        subst hbm
        simp [jsBool]
      · intro m hm hm0
        subst hm
        simp [jsBool, hm0]
      · intro ml hml
        subst hml
        simp [jsBool]
      · simp only []
        rw [bymd_pair_pos _ hx]
        simp

/-- `parseOptions` day-rule defaulting, Weekly case. -/
theorem c5aux_weekly (input : InputOptions) (nowMs : Int) (o : ParsedOptions)
    (hwn : input.byweekno = none) (hyd : input.byyearday = none)
    (hmd : input.bymonthday = none) (hwd : input.byweekday = none)
    (hea : input.byeaster = none)
    (hfr : input.freq = some WEEKLY)
    (hok : parseOptions input nowMs = Except.ok o) :
    o.byweekday = some [getWeekday o.dtstart] ∧ o.bynweekday = none ∧
    o.bymonthday = [] ∧ o.bynmonthday = [] := by
  obtain ⟨f, dts, itv, wk, cnt, unt, bsp, bm, bmd, byd, bwn, bwd, bh, bmin, bsec, bea⟩ := input
  simp only [] at hwn hyd hmd hwd hea hfr
  subst hwn hyd hmd hwd hea hfr
  rcases bsp with _ | ⟨v | l⟩ <;>
    simp [parseOptions, jsBool, jsNotEmpty, MONTHLY, YEARLY, HOURLY, MINUTELY, SECONDLY,
      WEEKLY, pure, bind, Except.pure, Except.bind, throw, throwThe, MonadExceptOf.throw] at hok
  case none =>
    subst hok
    simp
  all_goals
    split at hok
    · simp at hok
    · simp at hok
      subst hok
      simp

/-- C5: when no day-selecting BY-rule is present (no `byweekno`,
`byyearday`, `bymonthday`, `byweekday`, `byeaster`), `parseOptions`
synthesizes day constraints from the start date: Yearly sets `bymonth` to
the start month (only when `bymonth` is absent) and the month-day selector
to the start day; Monthly sets the month-day selector to the start day;
Weekly sets `byweekday` to the start weekday. -/
theorem c5_day_rule_defaults (input : InputOptions) (nowMs : Int) (o : ParsedOptions)
    (hwn : input.byweekno = none) (hyd : input.byyearday = none)
    (hmd : input.bymonthday = none) (hwd : input.byweekday = none)
    (hea : input.byeaster = none)
    (hok : parseOptions input nowMs = Except.ok o) :
    (input.freq = some YEARLY →
      (input.bymonth = none → o.bymonth = some [getUTCMonth1 o.dtstart]) ∧
      (∀ m, input.bymonth = some (NumArr.num m) → ¬ m = 0 → o.bymonth = some [m]) ∧
      (∀ ml, input.bymonth = some (NumArr.arr ml) → o.bymonth = some ml) ∧
      o.bymonthday ++ o.bynmonthday = [getUTCDate o.dtstart] ∧
      (0 ≤ getUTCDate o.dtstart →
        o.bymonthday = [getUTCDate o.dtstart] ∧ o.bynmonthday = [])) ∧
    (input.freq = some MONTHLY →
      o.bymonthday ++ o.bynmonthday = [getUTCDate o.dtstart] ∧
      (0 ≤ getUTCDate o.dtstart →
        o.bymonthday = [getUTCDate o.dtstart] ∧ o.bynmonthday = [])) ∧
    (input.freq = some WEEKLY →
      o.byweekday = some [getWeekday o.dtstart] ∧ o.bynweekday = none ∧
      o.bymonthday = [] ∧ o.bynmonthday = []) :=
  ⟨fun hfr => c5aux_yearly input nowMs o hwn hyd hmd hwd hea hfr hok,
   fun hfr => c5aux_monthly input nowMs o hwn hyd hmd hwd hea hfr hok,
   fun hfr => c5aux_weekly input nowMs o hwn hyd hmd hwd hea hfr hok⟩

set_option maxRecDepth 10000 in
theorem c5_day_rule_defaults_witness :
    parseOptions inC5 0 = Except.ok oC5 ∧
    (oC5.bymonthday ++ oC5.bynmonthday = [getUTCDate oC5.dtstart] ∧
      (0 ≤ getUTCDate oC5.dtstart →
        oC5.bymonthday = [getUTCDate oC5.dtstart] ∧ oC5.bynmonthday = [])) :=
  ⟨by rfl,
   (c5_day_rule_defaults inC5 0 oC5 rfl rfl rfl rfl rfl (by rfl)).2.1 rfl⟩

/-- C8 (amended): an explicit weekday ordinal mixed with a frequency finer
than Monthly raises no error; the ordinal is silently dropped and the entry
lands in plain `byweekday`, with `bynweekday` left empty (the counterexample
shows a concrete error-free construction). -/
theorem c8_nth_weekday_degrade (input : InputOptions) (nowMs : Int) (o : ParsedOptions)
    (w : Weekday) (fr : Int)
    (hwd : input.byweekday = some (.single (.wobj w)))
    (hea : input.byeaster = none)
    (hfr : input.freq = some fr) (hfr2 : MONTHLY < fr)
    (hok : parseOptions input nowMs = Except.ok o) :
    o.byweekday = some [w.weekday] ∧ o.bynweekday = none := by
  obtain ⟨f, dts, itv, wk, cnt, unt, bsp, bm, bmd, byd, bwn, bwd, bh, bmin, bsec, bea⟩ := input
  simp only [] at hwd hea hfr
  subst hwd hea hfr
  have hd : decide (MONTHLY < fr) = true := by simp [hfr2]
  rcases bsp with _ | ⟨v | l⟩ <;>
    simp [parseOptions, jsBool, jsNotEmpty, MONTHLY, YEARLY, HOURLY, MINUTELY, SECONDLY,
      WEEKLY, pure, bind, Except.pure, Except.bind, throw, throwThe,
      MonadExceptOf.throw, hd] at hok
  case none =>
    split at hok
    · simp at hok
    · simp at hok
      subst hok
      simp [show (1:Int) < fr from hfr2]
  all_goals
    split at hok
    · simp at hok
    · split at hok
      · simp at hok
      · simp at hok
        subst hok
        simp [show (1:Int) < fr from hfr2]

theorem c8_no_error_cex :
    parseOptions inC8 0 = Except.ok oC8 ∧
    oC8.byweekday = some [1] ∧ oC8.bynweekday = none :=
  ⟨rfl, rfl, rfl⟩

theorem c8_nth_weekday_degrade_witness :
    oC8.byweekday = some [(⟨1, some 2⟩ : Weekday).weekday] ∧ oC8.bynweekday = none :=
  c8_nth_weekday_degrade inC8 0 oC8 ⟨1, some 2⟩ 3 rfl rfl rfl (by norm_num [MONTHLY]) rfl

/-- Once the period loop stops by its own rules (not by fuel), more fuel
changes nothing. -/
theorem candStreamGo_stable (o : ParsedOptions) :
    ∀ (f g : Nat) (c : DateTime) (ts : List Time), f ≤ g →
      (candStreamGo o f c ts).2 = false →
      candStreamGo o g c ts = candStreamGo o f c ts
  | 0, g, c, ts, _, hflag => by
    rw [candStreamGo] at hflag
    simp at hflag
  | f + 1, g, c, ts, hfg, hflag => by
    obtain ⟨g', rfl⟩ : ∃ g', g = g' + 1 := ⟨g - 1, by omega⟩
    rw [candStreamGo] at hflag ⊢
    rw [candStreamGo]
    by_cases hint : (o.interval == 0) = true
    · rw [if_pos hint, if_pos hint]
    · rw [if_neg hint] at hflag ⊢
      rw [if_neg hint]
      cases hadd : DateTime.add (f + 1) o
          (periodCandidates o (Iterinfo.rebuild o c.year c.month) c ts).2 c with
      | none =>
        simp only [hadd] at hflag
        simp at hflag
      | some c' =>
        have hadd2 := DateTime_add_mono (f + 1) (g' + 1) o _ c c' (by omega) hadd
        simp only [hadd] at hflag
        simp only [hadd2, hadd]
        by_cases hy : c'.year > MAXYEAR
        · rw [if_pos hy, if_pos hy]
        · rw [if_neg hy] at hflag ⊢
          rw [if_neg hy]
          have hrest : (candStreamGo o f c'
              (if !freqIsDailyOrGreater o.freq then
                gettimeset o o.freq c'.hour c'.minute c'.second 0
              else ts)).2 = false := by simpa using hflag
          have hstep := candStreamGo_stable o f g' c'
            (if !freqIsDailyOrGreater o.freq then
              gettimeset o o.freq c'.hour c'.minute c'.second 0
            else ts) (by omega) hrest
          simp only [hstep]

/-- An `all` query over an engine-terminated stream is fuel-independent. -/
theorem allQuery_stable (o : ParsedOptions) (f g : Nat) (hfg : f ≤ g)
    (hex : candExhausted f o = false) :
    allQuery g o = allQuery f o ∧ candExhausted g o = false := by
  unfold candExhausted at hex
  have hs := candStreamGo_stable o f g (DateTime.fromDate o.dtstart)
    (makeTimeset o (DateTime.fromDate o.dtstart)) hfg hex
  constructor
  · unfold allQuery iterResultList candStream
    simp only [hs]
  · unfold candExhausted
    simp only [hs]
    simpa using hex

/-- Every month (after the `emod 12` normalization inside `monthRange`) has
at least 28 days. -/
theorem monthRange_days_ge (y m : Int) : 28 ≤ (monthRange y m).2 := by
  unfold monthRange getMonthDays0
  have h0 : 0 ≤ Int.emod m 12 := Int.emod_nonneg m (by norm_num)
  have h12 : Int.emod m 12 < 12 := Int.emod_lt_of_pos m (by norm_num)
  simp only
  split
  · omega
  · have hk : (Int.emod m 12).toNat < 12 := by omega
    set k := (Int.emod m 12).toNat with hkdef
    interval_cases k <;> simp [MONTH_DAYS]

/-- With unbounded `count`/`until`, a fuel increase does not change an
already-produced prefix of `all`. -/
theorem allQuery_take_stable (o : ParsedOptions) (f g : Nat) (hfg : f ≤ g) (n : Nat)
    (hc : o.count = none) (hu : o.untilOpt = none)
    (hlen : n ≤ ((candStream f o).filter (fun r => decide (o.dtstart ≤ r))).length) :
    (allQuery g o).take n = (allQuery f o).take n := by
  obtain ⟨X, hX⟩ := candStream_mono o f g hfg
  by_cases hi : o.interval = 0
  · unfold allQuery iterResultList
    rw [if_pos (by simp [hi]), if_pos (by simp [hi])]
  · have hglue : ∀ h, allQuery h o
        = (candStream h o).filter (fun r => decide (o.dtstart ≤ r)) := by
      intro h
      unfold allQuery iterResultList
      rw [if_neg (by simp [hc, hi]), hc, hu, runCands_all_unbounded]
    rw [hglue, hglue, hX, List.filter_append, List.take_append_of_le_length hlen]

set_option maxRecDepth 100000 in
set_option maxHeartbeats 2000000 in
/-- C1: when month/year arithmetic leaves `day` exceeding the new month's
length, `fixDay` does not clamp: it repeatedly subtracts the current
month's length and increments the month (carrying into the year, capping
past `MAXYEAR`) until the day fits, preserving the absolute date value;
consequently Monthly with `bymonthday=[31]` from 2024-01-31 yields
2024-01-31, 2024-03-31, 2024-05-31, 2024-07-31 as the first four emissions
at every sufficient fuel (months lacking a 31st produce no occurrence). -/
theorem c1_fixday_no_clamp :
    (∀ (dt : DateTime), 1 ≤ dt.month → dt.month ≤ 12 → 1 ≤ dt.day →
      makeDay dt.fixDay.year (dt.fixDay.month - 1) dt.fixDay.day
          = makeDay dt.year (dt.month - 1) dt.day ∧
      1 ≤ dt.fixDay.month ∧ dt.fixDay.month ≤ 12 ∧ 1 ≤ dt.fixDay.day ∧
      dt.year ≤ dt.fixDay.year ∧
      (dt.fixDay.year ≤ MAXYEAR →
        dt.fixDay.day ≤ (monthRange dt.fixDay.year (dt.fixDay.month - 1)).2)) ∧
    (∀ f, (allQuery (7 + f) optsC1).take 4 =
      [utcMs 2024 0 31 0 0 0 0, utcMs 2024 2 31 0 0 0 0,
       utcMs 2024 4 31 0 0 0 0, utcMs 2024 6 31 0 0 0 0]) := by
  constructor
  · intro dt hm1 hm2 hd
    unfold DateTime.fixDay
    by_cases h28 : dt.day ≤ 28
    · rw [if_pos h28]
      refine ⟨rfl, hm1, hm2, hd, le_refl _, fun _ => ?_⟩
      have := monthRange_days_ge dt.year (dt.month - 1)
      omega
    · rw [if_neg h28]
      have hs := fixDayGo_spec dt.year dt.month dt.day hm1 hm2 hd
      simpa using hs
  · intro f
    have hbase : ((candStream 7 optsC1).filter
          (fun r => decide (optsC1.dtstart ≤ r))).length = 4 ∧
        (allQuery 7 optsC1).take 4 =
          [utcMs 2024 0 31 0 0 0 0, utcMs 2024 2 31 0 0 0 0,
           utcMs 2024 4 31 0 0 0 0, utcMs 2024 6 31 0 0 0 0] := by
      constructor <;> decide
    rw [allQuery_take_stable optsC1 7 (7 + f) (by omega) 4 rfl rfl
      (le_of_eq hbase.1.symm)]
    exact hbase.2

set_option maxRecDepth 100000 in
set_option maxHeartbeats 2000000 in
theorem c1_fixday_no_clamp_witness :
    (makeDay dtC1.fixDay.year (dtC1.fixDay.month - 1) dtC1.fixDay.day
        = makeDay dtC1.year (dtC1.month - 1) dtC1.day) ∧
    (1 ≤ dtC1.fixDay.month) ∧ (dtC1.fixDay.month ≤ 12) ∧ (1 ≤ dtC1.fixDay.day) ∧
    (dtC1.year ≤ dtC1.fixDay.year) ∧
    (dtC1.fixDay.day ≤ (monthRange dtC1.fixDay.year (dtC1.fixDay.month - 1)).2) ∧
    ((allQuery 7 optsC1).take 4 =
      [utcMs 2024 0 31 0 0 0 0, utcMs 2024 2 31 0 0 0 0,
       utcMs 2024 4 31 0 0 0 0, utcMs 2024 6 31 0 0 0 0]) := by
  have h := c1_fixday_no_clamp.1 dtC1 (by decide) (by decide) (by decide)
  have hfix : dtC1.fixDay = dtC1 := by
    rw [DateTime.fixDay, if_neg (by decide), fixDayGo.eq_def]
    rw [if_pos (by decide)]
  exact ⟨h.1, h.2.1, h.2.2.1, h.2.2.2.1, h.2.2.2.2.1,
    h.2.2.2.2.2 (by rw [hfix]; decide), c1_fixday_no_clamp.2 0⟩

set_option maxRecDepth 20000 in
/-- C2 counterexample: a positive `count` that is never served — the
`MAXYEAR` cap ends generation (`candExhausted = false` certifies the stream
stopped by the engine's own rule, not by fuel) with an empty result. -/
theorem c2_maxyear_starvation_cex :
    optsC2.count = some 1 ∧ allQuery 2 optsC2 = [] ∧
    candExhausted 2 optsC2 = false := by
  refine ⟨rfl, ?_, ?_⟩ <;> decide

set_option maxRecDepth 20000 in
theorem c2_count_take_witness :
    (allQuery 3 optsC2w =
      ((candStream 3 optsC2w).filter
        (fun r => decide (optsC2w.dtstart ≤ r))).take (2:Int).toNat) ∧
    (allQuery 3 optsC2w).length = (2:Int).toNat := by
  have h := c2_count_take 3 optsC2w 2 rfl (by norm_num) rfl (by decide)
  exact ⟨h.1, h.2 (by decide)⟩

/-- C3 (amended): `after(bound, inc)` returns the first date at or past the
bound in *emission* order, with a true early exit (the remainder of the
stream is never consulted once a hit exists); emission order can differ
from chronological order when `byhour` is unsorted, so the returned date
need not be the chronologically first occurrence (see the counterexample). -/
theorem c3_after_emission_order (fuel : Nat) (o : ParsedOptions) (dt : Int) (inc : Bool) :
    afterQuery fuel o dt inc =
      (allQuery fuel o).find? (fun d => decide ((if inc then dt else dt + 1) ≤ d)) ∧
    (∀ (dtstart : Int) (untilOpt : Option Int) (s t : List Int) (count : Option Int),
      ((runCands .mAll dtstart untilOpt s count).find?
          (fun d => decide ((if inc then dt else dt + 1) ≤ d))).isSome = true →
      runCands (.mAfter dt inc) dtstart untilOpt (s ++ t) count =
        runCands (.mAfter dt inc) dtstart untilOpt s count) :=
  ⟨afterQuery_eq_find fuel o dt inc,
   fun dtstart untilOpt s t count h =>
     runCands_after_early_exit dt inc dtstart untilOpt s t count h⟩

theorem c3_after_emission_order_witness :
    afterQuery 2 optsC3 0 true =
      (allQuery 2 optsC3).find? (fun d => decide ((if true then (0:Int) else 0 + 1) ≤ d)) ∧
    runCands (.mAfter 0 true) 0 none ([5] ++ [7]) none =
      runCands (.mAfter 0 true) 0 none [5] none := by
  have h := c3_after_emission_order 2 optsC3 0 true
  exact ⟨h.1, h.2 0 none [5] [7] none (by decide)⟩

set_option maxRecDepth 20000 in
/-- C3 counterexample: with `byhour=[17,6]`, `after(dtstart, true)` returns
17:00 of day one although 06:00 of day one is a later-emitted, ≥-bound,
chronologically earlier occurrence. -/
theorem c3_after_nonchronological_cex :
    afterQuery 2 optsC3 (utcMs 2024 0 1 0 0 0 0) true
      = some (utcMs 2024 0 1 17 0 0 0) ∧
    utcMs 2024 0 1 6 0 0 0 ∈ allQuery 2 optsC3 ∧
    utcMs 2024 0 1 0 0 0 0 ≤ utcMs 2024 0 1 6 0 0 0 ∧
    utcMs 2024 0 1 6 0 0 0 < utcMs 2024 0 1 17 0 0 0 := by
  refine ⟨by decide, by decide, by decide, by decide⟩

set_option maxRecDepth 20000 in
/-- C9 counterexample: the adapter's first two dates are not in
chronological order. -/
theorem c9_nonchronological_cex :
    adapterNext 2 optsC9 2
      = [utcMs 2024 0 1 17 0 0 0, utcMs 2024 0 1 6 0 0 0] ∧
    utcMs 2024 0 1 6 0 0 0 < utcMs 2024 0 1 17 0 0 0 :=
  ⟨by decide, by decide⟩

theorem c7_zero_guard_witness :
    allQuery 1 optsC7 = [] ∧ betweenQuery 1 optsC7 0 1000 true = [] ∧
    beforeQuery 1 optsC7 0 true = none ∧ afterQuery 1 optsC7 0 true = none ∧
    iterResultList 2 optsC7 .mAll = iterResultList 1 optsC7 .mAll := by
  have h := c7_zero_guard 1 optsC7 .mAll 0 1000 0 true (Or.inl rfl)
  exact ⟨h.1, h.2.1, h.2.2.1, h.2.2.2.1, h.2.2.2.2 2⟩

end RRLib

namespace TQState

/-- C10: `parseTaskListConfig` is total and line-wise robust: empty lines,
lines without exactly two colon-separated parts, and unknown keys leave the
state unchanged, while invalid `sort`/`group` values reset those fields to
`undefined`; the whole parse is the fold of the line handler over the
defaults. -/
theorem c10_parse_task_list_total (st : TaskListConfig) (lines : List String) :
    (parseTaskListConfig [] = TaskListConfigDefaults) ∧
    (parseTaskListLine st "" = st) ∧
    (∀ line, line ≠ "" → ((jsSplit line ':').map jsTrim).length ≠ 2 →
      parseTaskListLine st line = st) ∧
    (∀ line k v, line ≠ "" → ((jsSplit line ':').map jsTrim) = [k, v] →
      k ∉ ["overdue", "due", "no-due", "completed", "sort", "group",
        "select-tags", "omit-tags", "select-day", "select-week"] →
      parseTaskListLine st line = st) ∧
    (∀ line v, line ≠ "" → ((jsSplit line ':').map jsTrim) = ["sort", v] →
      v ≠ "due" → v ≠ "score" →
      parseTaskListLine st line = { st with sort := none }) ∧
    (∀ line v, line ≠ "" → ((jsSplit line ':').map jsTrim) = ["group", v] →
      v ≠ "due" → v ≠ "completed" →
      parseTaskListLine st line = { st with group := none }) ∧
    (parseTaskListConfig lines =
      lines.foldl parseTaskListLine TaskListConfigDefaults) := by
  refine ⟨rfl, rfl, ?_, ?_, ?_, ?_, rfl⟩
  · intro line hne hlen
    unfold parseTaskListLine
    rw [if_neg (by simp [hne])]
    rw [if_pos (by simpa using hlen)]
  · intro line k v hne hparts hk
    unfold parseTaskListLine
    rw [if_neg (by simp [hne])]
    simp only [hparts]
    simp at hk
    obtain ⟨h1, h2, h3, h4, h5, h6, h7, h8, h9, h10⟩ := hk
    simp [h1, h2, h3, h4, h5, h6, h7, h8, h9, h10, List.getD]
  · intro line v hne hparts hv1 hv2
    unfold parseTaskListLine
    rw [if_neg (by simp [hne])]
    simp only [hparts]
    simp [hv1, hv2, List.getD]
  · intro line v hne hparts hv1 hv2
    unfold parseTaskListLine
    rw [if_neg (by simp [hne])]
    simp only [hparts]
    simp [hv1, hv2, List.getD]

theorem c10_parse_task_list_total_witness :
    (parseTaskListConfig [] = TaskListConfigDefaults) ∧
    (parseTaskListLine TaskListConfigDefaults "" = TaskListConfigDefaults) ∧
    (parseTaskListLine TaskListConfigDefaults "a:b:c" = TaskListConfigDefaults) ∧
    (parseTaskListLine TaskListConfigDefaults "unknown: x" = TaskListConfigDefaults) ∧
    (parseTaskListLine TaskListConfigDefaults "sort: alpha"
      = { TaskListConfigDefaults with sort := none }) ∧
    (parseTaskListLine TaskListConfigDefaults "group: xyz"
      = { TaskListConfigDefaults with group := none }) := by
  have h := c10_parse_task_list_total TaskListConfigDefaults []
  exact ⟨h.1, h.2.1,
    h.2.2.1 "a:b:c" (by decide) (by decide),
    h.2.2.2.1 "unknown: x" "unknown" "x" (by decide) (by decide) (by decide),
    h.2.2.2.2.1 "sort: alpha" "alpha" (by decide) (by decide) (by decide) (by decide),
    h.2.2.2.2.2.1 "group: xyz" "xyz" (by decide) (by decide) (by decide) (by decide)⟩

end TQState
